import Mathlib

/-!
# Serum DEX instruction decoding

A shallow embedding of `serum/instruction.go`: the envelope decoder
(`Instruction.UnmarshalBinary`), the seven payload structs walked field by
field by the binary codec, the encoder (`Instruction.MarshalBinary`), the
account-role resolvers (`SetAccounts`) and the two label mappings.

The byte cursor of the codec is represented by the bytes that are still
unread; machine integers are natural numbers, bounded by the width of the
read that produced them.

The binary codec itself (package `bin`: fixed-width reads and writes, the
reflective struct walker and the variant table lookup) is an external
collaborator whose source is not part of the repository. Its operations are
modelled here, each marked as such: fixed-width little-endian integers, a
truncation error when too few bytes remain, struct fields visited in declared
order, a field tagged `bin:"-"` left out, and a pointer field without that tag
visited through its pointee.
-/

namespace Serum

/-! ## Bytes, keys and the codec primitives -/

/-- One byte of a buffer. -/
abbrev Byte := Fin 256

/-- The type `solana.PublicKey`, a 32-byte array. -/
abbrev PublicKey := List Byte

/-- The type `solana.AccountMeta`: fields in positional order
`PublicKey, IsSigner, IsWritable`. -/
structure AccountMeta where
  PublicKey : PublicKey
  IsSigner : Bool
  IsWritable : Bool
deriving DecidableEq, Repr

/-- The type `bin.Uint128`: two 64-bit halves, low half first on the wire. -/
structure Uint128 where
  Lo : Nat
  Hi : Nat
deriving DecidableEq, Repr

/-- The 128-bit number held by a `Uint128`. -/
def Uint128.toNat (u : Uint128) : Nat := u.Lo + 2 ^ 64 * u.Hi

/-- Errors of the decoding side. `truncated`: a read needed more bytes than
remain. `unknownVariant`: the type ID has no entry in the variant table. -/
inductive DecodeError where
  | truncated
  | unknownVariant (typeID : Nat)
deriving DecidableEq, Repr

/-- The decoder cursor: the bytes of the buffer not yet consumed
(`data[pos:]`). -/
abbrev Decoder := List Byte

/-- Little-endian value of a byte string. -/
def leVal : List Byte → Nat
  | [] => 0
  | b :: bs => b.val + 256 * leVal bs

/-- Modelled from the spec: the fixed-width little-endian read of the binary
codec (`bin.Decoder`), which fails when fewer than `n` bytes remain and
otherwise consumes exactly `n` bytes. -/
def readLE (n : Nat) (d : Decoder) : Except DecodeError (Nat × Decoder) :=
  if d.length < n then .error .truncated else .ok (leVal (d.take n), d.drop n)

/-- Modelled from the spec: `bin.Decoder.ReadUint8`. -/
def ReadUint8 (d : Decoder) : Except DecodeError (Nat × Decoder) := readLE 1 d

/-- Modelled from the spec: `bin.Decoder.ReadUint16`, little endian. -/
def ReadUint16 (d : Decoder) : Except DecodeError (Nat × Decoder) := readLE 2 d

/-- Modelled from the spec: `bin.Decoder.ReadUint32`, little endian. -/
def ReadUint32 (d : Decoder) : Except DecodeError (Nat × Decoder) := readLE 4 d

/-- Modelled from the spec: `bin.Decoder.ReadUint64`, little endian. -/
def ReadUint64 (d : Decoder) : Except DecodeError (Nat × Decoder) := readLE 8 d

/-- Modelled from the spec: `bin.Decoder.ReadUint128`, sixteen bytes, the low
64-bit half first. -/
def ReadUint128 (d : Decoder) : Except DecodeError (Uint128 × Decoder) :=
  if d.length < 16 then .error .truncated
  else .ok (⟨leVal (d.take 8), leVal ((d.drop 8).take 8)⟩, d.drop 16)

/-- Modelled from the spec: `bin.Decoder.ReadBool`, one byte, true when it is
not zero. -/
def ReadBool (d : Decoder) : Except DecodeError (Bool × Decoder) := do
  let (b, d) ← ReadUint8 d
  pure (b != 0, d)

/-- Modelled from the spec: the codec reading a `[32]byte` array, element by
element; 32 bytes are consumed. -/
def ReadPublicKey (d : Decoder) : Except DecodeError (PublicKey × Decoder) :=
  if d.length < 32 then .error .truncated else .ok (d.take 32, d.drop 32)

/-- Modelled from the spec: the codec walking a struct of type
`solana.AccountMeta`: key, signer flag, writable flag. -/
def decodeAccountMeta (d : Decoder) : Except DecodeError (AccountMeta × Decoder) := do
  let (k, d) ← ReadPublicKey d
  let (s, d) ← ReadBool d
  let (w, d) ← ReadBool d
  pure (⟨k, s, w⟩, d)

/-- Modelled from the spec: the step of the codec's struct walker at a field
tagged `bin:"-"`: the field is skipped, it keeps its zero value (nil) and the
cursor does not move. -/
def skippedField {α : Type} (d : Decoder) : Except DecodeError (Option α × Decoder) :=
  .ok (none, d)

/-- Modelled from the spec: the step of the codec's struct walker at a pointer
field without a skip tag: the pointee is allocated and decoded from the
cursor. -/
def decodePtrField {α : Type} (dec : Decoder → Except DecodeError (α × Decoder))
    (d : Decoder) : Except DecodeError (Option α × Decoder) :=
  match dec d with
  | .error e => .error e
  | .ok (a, rest) => .ok (some a, rest)

/-! ## Label mappings -/

/-- The constant `SideLayoutTypeUnknown`. -/
def SideLayoutTypeUnknown : String := "UNKNOWN"
/-- The constant `SideLayoutTypeBid`. -/
def SideLayoutTypeBid : String := "BID"
/-- The constant `SideLayoutTypeAsk`. -/
def SideLayoutTypeAsk : String := "ASK"

/-- The type `Side`, a named `uint32`. -/
structure Side where
  raw : Nat
deriving DecidableEq, Repr

/-- The method `Side.getSide`. -/
def Side.getSide (s : Side) : String :=
  match s.raw with
  | 0 => SideLayoutTypeBid
  | 1 => SideLayoutTypeAsk
  | _ => SideLayoutTypeUnknown

/-- The method `Side.String`. -/
def Side.String (s : Side) : String := s.getSide

/-- The constant `OrderTypeUnknown`. -/
def OrderTypeUnknown : String := "UNKNOWN"
/-- The constant `OrderTypeLimit`. -/
def OrderTypeLimit : String := "LIMIT"
/-- The constant `OrderTypeImmediateOrCancel`. -/
def OrderTypeImmediateOrCancel : String := "IMMEDIATE_OR_CANCEL"
/-- The constant `OrderTypePostOnly`. -/
def OrderTypePostOnly : String := "POST_ONLY"

/-- The type `OrderType`, a named `uint32`. -/
structure OrderType where
  raw : Nat
deriving DecidableEq, Repr

/-- The method `OrderType.getOrderType`. -/
def OrderType.getOrderType (o : OrderType) : String :=
  match o.raw with
  | 0 => OrderTypeLimit
  | 1 => OrderTypeImmediateOrCancel
  | 2 => OrderTypePostOnly
  | _ => OrderTypeUnknown

/-- The method `OrderType.String`. -/
def OrderType.String (t : OrderType) : String := t.getOrderType

/-! ## Payload structs and role structures -/

/-- The struct `InitializeMarketAccounts`. -/
structure InitializeMarketAccounts where
  Market : AccountMeta
  SPLCoinToken : AccountMeta
  SPLPriceToken : AccountMeta
  CoinMint : AccountMeta
  PriceMint : AccountMeta
deriving DecidableEq, Repr

/-- The struct `InstructionInitializeMarket`; `Accounts` is tagged `bin:"-"`. -/
structure InstructionInitializeMarket where
  BaseLotSize : Nat
  QuoteLotSize : Nat
  FeeRateBps : Nat
  VaultSignerNonce : Nat
  QuoteDustThreshold : Nat
  Accounts : Option InitializeMarketAccounts
deriving DecidableEq, Repr

/-- The struct `NewOrderAccounts`; `SRMDiscountAccount` is a pointer. -/
structure NewOrderAccounts where
  Market : AccountMeta
  OpenOrders : AccountMeta
  RequestQueue : AccountMeta
  Payer : AccountMeta
  Owner : AccountMeta
  CoinVault : AccountMeta
  PCVault : AccountMeta
  SPLTokenProgram : AccountMeta
  Rent : AccountMeta
  SRMDiscountAccount : Option AccountMeta
deriving DecidableEq, Repr

/-- The struct `InstructionNewOrder`; `Accounts` is tagged `bin:"-"`. -/
structure InstructionNewOrder where
  Side : Side
  LimitPrice : Nat
  MaxQuantity : Nat
  OrderType : OrderType
  ClientID : Nat
  Accounts : Option NewOrderAccounts
deriving DecidableEq, Repr

/-- The struct `MatchOrderAccounts`. -/
structure MatchOrderAccounts where
  Market : AccountMeta
  RequestQueue : AccountMeta
  EventQueue : AccountMeta
  Bids : AccountMeta
  Asks : AccountMeta
  CoinFeeReceivable : AccountMeta
  PCFeeReceivable : AccountMeta
deriving DecidableEq, Repr

/-- The struct `InstructionMatchOrder`; `Accounts` is tagged `bin:"-"`. -/
structure InstructionMatchOrder where
  Limit : Nat
  Accounts : Option MatchOrderAccounts
deriving DecidableEq, Repr

/-- The struct `ConsumeEventsAccounts`; `OpenOrders` is a slice. -/
structure ConsumeEventsAccounts where
  OpenOrders : List AccountMeta
  Market : AccountMeta
  EventQueue : AccountMeta
  CoinFeeReceivable : AccountMeta
  PCFeeReceivable : AccountMeta
deriving DecidableEq, Repr

/-- The struct `InstructionConsumeEvents`; `Accounts` is tagged `bin:"-"`. -/
structure InstructionConsumeEvents where
  Limit : Nat
  Accounts : Option ConsumeEventsAccounts
deriving DecidableEq, Repr

/-- The struct `CancelOrderAccounts`. -/
structure CancelOrderAccounts where
  Market : AccountMeta
  OpenOrders : AccountMeta
  RequestQueue : AccountMeta
  Owner : AccountMeta
deriving DecidableEq, Repr

/-- The struct `InstructionCancelOrder`: `Side` is a plain `uint32`;
`Accounts` is tagged `bin:"-"`. -/
structure InstructionCancelOrder where
  Side : Nat
  OrderID : Uint128
  OpenOrders : PublicKey
  OpenOrderSlot : Nat
  Accounts : Option CancelOrderAccounts
deriving DecidableEq, Repr

/-- The struct `SettleFundsAccounts`; `ReferrerPCWallet` is a pointer. -/
structure SettleFundsAccounts where
  Market : AccountMeta
  OpenOrders : AccountMeta
  Owner : AccountMeta
  CoinVault : AccountMeta
  PCVault : AccountMeta
  CoinWallet : AccountMeta
  PCWallet : AccountMeta
  Signer : AccountMeta
  SPLTokenProgram : AccountMeta
  ReferrerPCWallet : Option AccountMeta
deriving DecidableEq, Repr

/-- The struct `InstructionSettleFunds`; `Accounts` is tagged `bin:"-"`. -/
structure InstructionSettleFunds where
  Accounts : Option SettleFundsAccounts
deriving DecidableEq, Repr

/-- The struct `CancelOrderByClientIdAccounts`. -/
structure CancelOrderByClientIdAccounts where
  Market : AccountMeta
  OpenOrders : AccountMeta
  RequestQueue : AccountMeta
  Owner : AccountMeta
deriving DecidableEq, Repr

/-- The struct `InstructionCancelOrderByClientId`; its `Accounts` field
carries no `bin` tag. -/
structure InstructionCancelOrderByClientId where
  ClientID : Nat
  Accounts : Option CancelOrderByClientIdAccounts
deriving DecidableEq, Repr

/-! ## Payload decoders: the struct walker at each payload type -/

/-- Decoding of `InstructionInitializeMarket`: the fields in declared order,
`Accounts` skipped by its tag. -/
def decodeInitializeMarket (d : Decoder) :
    Except DecodeError (InstructionInitializeMarket × Decoder) := do
  let (baseLotSize, d) ← ReadUint64 d
  let (quoteLotSize, d) ← ReadUint64 d
  let (feeRateBps, d) ← ReadUint16 d
  let (vaultSignerNonce, d) ← ReadUint64 d
  let (quoteDustThreshold, d) ← ReadUint64 d
  let (accounts, d) ← skippedField d
  pure (⟨baseLotSize, quoteLotSize, feeRateBps, vaultSignerNonce, quoteDustThreshold,
    accounts⟩, d)

/-- Decoding of `InstructionNewOrder`: `Side` and `OrderType` are read as
their underlying `uint32`; `Accounts` skipped by its tag. -/
def decodeNewOrder (d : Decoder) : Except DecodeError (InstructionNewOrder × Decoder) := do
  let (side, d) ← ReadUint32 d
  let (limitPrice, d) ← ReadUint64 d
  let (maxQuantity, d) ← ReadUint64 d
  let (orderType, d) ← ReadUint32 d
  let (clientID, d) ← ReadUint64 d
  let (accounts, d) ← skippedField d
  pure (⟨⟨side⟩, limitPrice, maxQuantity, ⟨orderType⟩, clientID, accounts⟩, d)

/-- Decoding of `InstructionMatchOrder`; `Accounts` skipped by its tag. -/
def decodeMatchOrder (d : Decoder) : Except DecodeError (InstructionMatchOrder × Decoder) := do
  let (limit, d) ← ReadUint16 d
  let (accounts, d) ← skippedField d
  pure (⟨limit, accounts⟩, d)

/-- Decoding of `InstructionConsumeEvents`; `Accounts` skipped by its tag. -/
def decodeConsumeEvents (d : Decoder) :
    Except DecodeError (InstructionConsumeEvents × Decoder) := do
  let (limit, d) ← ReadUint16 d
  let (accounts, d) ← skippedField d
  pure (⟨limit, accounts⟩, d)

/-- Decoding of `InstructionCancelOrder`; `Accounts` skipped by its tag. -/
def decodeCancelOrder (d : Decoder) :
    Except DecodeError (InstructionCancelOrder × Decoder) := do
  let (side, d) ← ReadUint32 d
  let (orderID, d) ← ReadUint128 d
  let (openOrders, d) ← ReadPublicKey d
  let (openOrderSlot, d) ← ReadUint8 d
  let (accounts, d) ← skippedField d
  pure (⟨side, orderID, openOrders, openOrderSlot, accounts⟩, d)

/-- Decoding of `InstructionSettleFunds`: no payload field; `Accounts`
skipped by its tag. -/
def decodeSettleFunds (d : Decoder) :
    Except DecodeError (InstructionSettleFunds × Decoder) := do
  let (accounts, d) ← skippedField d
  pure (⟨accounts⟩, d)

/-- The struct walker at `CancelOrderByClientIdAccounts`: four
`AccountMeta` in declared order. -/
def decodeCancelOrderByClientIdAccounts (d : Decoder) :
    Except DecodeError (CancelOrderByClientIdAccounts × Decoder) := do
  let (market, d) ← decodeAccountMeta d
  let (openOrders, d) ← decodeAccountMeta d
  let (requestQueue, d) ← decodeAccountMeta d
  let (owner, d) ← decodeAccountMeta d
  pure (⟨market, openOrders, requestQueue, owner⟩, d)

/-- Decoding of `InstructionCancelOrderByClientId`: `ClientID`, then the
`Accounts` pointer field, which has no `bin:"-"` tag and is therefore walked
like any other field. -/
def decodeCancelOrderByClientId (d : Decoder) :
    Except DecodeError (InstructionCancelOrderByClientId × Decoder) := do
  let (clientID, d) ← ReadUint64 d
  let (accounts, d) ← decodePtrField decodeCancelOrderByClientIdAccounts d
  pure (⟨clientID, accounts⟩, d)

/-! ## The envelope -/

/-- The Go types listed in the variant table. -/
inductive VariantType where
  | InstructionInitializeMarket
  | InstructionNewOrder
  | InstructionMatchOrder
  | InstructionConsumeEvents
  | InstructionCancelOrder
  | InstructionSettleFunds
  | InstructionCancelOrderByClientId
deriving DecidableEq, Repr

/-- The variable `InstructionDefVariant`: the ordered table of names and
types; the type ID of an entry is its position. -/
def InstructionDefVariant : List (String × VariantType) :=
  [("initialize_market", .InstructionInitializeMarket),
   ("new_order", .InstructionNewOrder),
   ("match_orders", .InstructionMatchOrder),
   ("consume_events", .InstructionConsumeEvents),
   ("cancel_order", .InstructionCancelOrder),
   ("settle_funds", .InstructionSettleFunds),
   ("cancel_order_by_client_id", .InstructionCancelOrderByClientId)]

/-- The dynamic value held by `BaseVariant.Impl`: a pointer to one of the
seven payload structs. -/
inductive Impl where
  | initializeMarket (x : InstructionInitializeMarket)
  | newOrder (x : InstructionNewOrder)
  | matchOrder (x : InstructionMatchOrder)
  | consumeEvents (x : InstructionConsumeEvents)
  | cancelOrder (x : InstructionCancelOrder)
  | settleFunds (x : InstructionSettleFunds)
  | cancelOrderByClientId (x : InstructionCancelOrderByClientId)
deriving DecidableEq, Repr

/-- The table type of the value held by an `Impl`. -/
def Impl.variantType : Impl → VariantType
  | .initializeMarket _ => .InstructionInitializeMarket
  | .newOrder _ => .InstructionNewOrder
  | .matchOrder _ => .InstructionMatchOrder
  | .consumeEvents _ => .InstructionConsumeEvents
  | .cancelOrder _ => .InstructionCancelOrder
  | .settleFunds _ => .InstructionSettleFunds
  | .cancelOrderByClientId _ => .InstructionCancelOrderByClientId

/-- Modelled from the spec: the codec allocating a value of the table type
and decoding it (`decoder.Decode(a.Impl)`). -/
def decodeImpl (t : VariantType) (d : Decoder) : Except DecodeError (Impl × Decoder) :=
  match t with
  | .InstructionInitializeMarket =>
    (decodeInitializeMarket d).map (fun r => (.initializeMarket r.1, r.2))
  | .InstructionNewOrder => (decodeNewOrder d).map (fun r => (.newOrder r.1, r.2))
  | .InstructionMatchOrder => (decodeMatchOrder d).map (fun r => (.matchOrder r.1, r.2))
  | .InstructionConsumeEvents =>
    (decodeConsumeEvents d).map (fun r => (.consumeEvents r.1, r.2))
  | .InstructionCancelOrder => (decodeCancelOrder d).map (fun r => (.cancelOrder r.1, r.2))
  | .InstructionSettleFunds => (decodeSettleFunds d).map (fun r => (.settleFunds r.1, r.2))
  | .InstructionCancelOrderByClientId =>
    (decodeCancelOrderByClientId d).map (fun r => (.cancelOrderByClientId r.1, r.2))

/-- The struct `bin.BaseVariant`. -/
structure BaseVariant where
  TypeID : Nat
  Impl : Impl
deriving DecidableEq, Repr

/-- Modelled from the spec: `BaseVariant.UnmarshalBinaryVariant` with the
`Uint32TypeIDEncoding`: a little-endian `uint32` type ID, the table lookup,
then the payload. -/
def UnmarshalBinaryVariant (d : Decoder) (defn : List (String × VariantType)) :
    Except DecodeError (BaseVariant × Decoder) := do
  let (typeID, d) ← ReadUint32 d
  match defn[typeID]? with
  | none => .error (.unknownVariant typeID)
  | some (_, t) => do
    let (impl, d) ← decodeImpl t d
    pure (⟨typeID, impl⟩, d)

/-- The struct `Instruction`. -/
structure Instruction extends BaseVariant where
  Version : Nat
deriving DecidableEq, Repr

/-- The method `Instruction.UnmarshalBinary`, on the cursor `d`; the receiver
is the fresh value of its caller. -/
def Instruction.UnmarshalBinary (d : Decoder) : Except DecodeError (Instruction × Decoder) := do
  let (version, d) ← ReadUint8 d
  let (base, d) ← UnmarshalBinaryVariant d InstructionDefVariant
  pure (⟨base, version⟩, d)

/-! ## The encoder -/

/-- Errors of the encoding side. `nilPointer`: the struct walker was handed a
nil pointer, which has no pointee to walk. -/
inductive EncodeError where
  | nilPointer
deriving DecidableEq, Repr

/-- The encoder state: the bytes written so far. -/
abbrev Encoder := List Byte

/-- The `n` low bytes of `v`, least significant first. -/
def leBytes : Nat → Nat → List Byte
  | 0, _ => []
  | n + 1, v => ⟨v % 256, Nat.mod_lt v (by decide)⟩ :: leBytes n (v / 256)

/-- Modelled from the spec: `bin.Encoder.WriteUint8`. -/
def WriteUint8 (e : Encoder) (v : Nat) : Encoder := e ++ leBytes 1 v

/-- Modelled from the spec: `bin.Encoder.WriteUint16`, little endian. -/
def WriteUint16 (e : Encoder) (v : Nat) : Encoder := e ++ leBytes 2 v

/-- Modelled from the spec: `bin.Encoder.WriteUint32`, little endian. -/
def WriteUint32 (e : Encoder) (v : Nat) : Encoder := e ++ leBytes 4 v

/-- Modelled from the spec: `bin.Encoder.WriteUint64`, little endian. -/
def WriteUint64 (e : Encoder) (v : Nat) : Encoder := e ++ leBytes 8 v

/-- Modelled from the spec: `bin.Encoder.WriteUint128`, the low half first. -/
def WriteUint128 (e : Encoder) (v : Uint128) : Encoder := e ++ leBytes 8 v.Lo ++ leBytes 8 v.Hi

/-- Modelled from the spec: `bin.Encoder.WriteBool`, one byte, 1 or 0. -/
def WriteBool (e : Encoder) (b : Bool) : Encoder := e ++ [if b then 1 else 0]

/-- Modelled from the spec: the codec writing a `[32]byte` array, element by
element. -/
def WritePublicKey (e : Encoder) (k : PublicKey) : Encoder := e ++ k

/-- Modelled from the spec: the codec walking a `solana.AccountMeta`. -/
def encodeAccountMeta (e : Encoder) (m : AccountMeta) : Encoder :=
  WriteBool (WriteBool (WritePublicKey e m.PublicKey) m.IsSigner) m.IsWritable

/-- Modelled from the spec: the encoder's struct walker at a pointer field
without a skip tag: the pointee is walked; a nil pointer has none. -/
def encodePtrField {α : Type} (enc : Encoder → α → Except EncodeError Encoder)
    (e : Encoder) (p : Option α) : Except EncodeError Encoder :=
  match p with
  | none => .error .nilPointer
  | some a => enc e a

/-- Encoding of `InstructionInitializeMarket`; `Accounts` skipped by its tag. -/
def encodeInitializeMarket (e : Encoder) (x : InstructionInitializeMarket) :
    Except EncodeError Encoder :=
  let e := WriteUint64 e x.BaseLotSize
  let e := WriteUint64 e x.QuoteLotSize
  let e := WriteUint16 e x.FeeRateBps
  let e := WriteUint64 e x.VaultSignerNonce
  let e := WriteUint64 e x.QuoteDustThreshold
  .ok e

/-- Encoding of `InstructionNewOrder`; `Accounts` skipped by its tag. -/
def encodeNewOrder (e : Encoder) (x : InstructionNewOrder) : Except EncodeError Encoder :=
  let e := WriteUint32 e x.Side.raw
  let e := WriteUint64 e x.LimitPrice
  let e := WriteUint64 e x.MaxQuantity
  let e := WriteUint32 e x.OrderType.raw
  let e := WriteUint64 e x.ClientID
  .ok e

/-- Encoding of `InstructionMatchOrder`; `Accounts` skipped by its tag. -/
def encodeMatchOrder (e : Encoder) (x : InstructionMatchOrder) : Except EncodeError Encoder :=
  .ok (WriteUint16 e x.Limit)

/-- Encoding of `InstructionConsumeEvents`; `Accounts` skipped by its tag. -/
def encodeConsumeEvents (e : Encoder) (x : InstructionConsumeEvents) :
    Except EncodeError Encoder :=
  .ok (WriteUint16 e x.Limit)

/-- Encoding of `InstructionCancelOrder`; `Accounts` skipped by its tag. -/
def encodeCancelOrder (e : Encoder) (x : InstructionCancelOrder) : Except EncodeError Encoder :=
  let e := WriteUint32 e x.Side
  let e := WriteUint128 e x.OrderID
  let e := WritePublicKey e x.OpenOrders
  let e := WriteUint8 e x.OpenOrderSlot
  .ok e

/-- Encoding of `InstructionSettleFunds`; `Accounts` skipped by its tag. -/
def encodeSettleFunds (e : Encoder) (_x : InstructionSettleFunds) : Except EncodeError Encoder :=
  .ok e

/-- The encoder's struct walker at `CancelOrderByClientIdAccounts`. -/
def encodeCancelOrderByClientIdAccounts (e : Encoder) (a : CancelOrderByClientIdAccounts) :
    Except EncodeError Encoder :=
  let e := encodeAccountMeta e a.Market
  let e := encodeAccountMeta e a.OpenOrders
  let e := encodeAccountMeta e a.RequestQueue
  let e := encodeAccountMeta e a.Owner
  .ok e

/-- Encoding of `InstructionCancelOrderByClientId`: `ClientID`, then the
untagged `Accounts` pointer field. -/
def encodeCancelOrderByClientId (e : Encoder) (x : InstructionCancelOrderByClientId) :
    Except EncodeError Encoder :=
  let e := WriteUint64 e x.ClientID
  encodePtrField encodeCancelOrderByClientIdAccounts e x.Accounts

/-- Modelled from the spec: `encoder.Encode(i.Impl)`, the struct walker at the
dynamic type of `Impl`. -/
def encodeImpl (e : Encoder) (impl : Impl) : Except EncodeError Encoder :=
  match impl with
  | .initializeMarket x => encodeInitializeMarket e x
  | .newOrder x => encodeNewOrder e x
  | .matchOrder x => encodeMatchOrder e x
  | .consumeEvents x => encodeConsumeEvents e x
  | .cancelOrder x => encodeCancelOrder e x
  | .settleFunds x => encodeSettleFunds e x
  | .cancelOrderByClientId x => encodeCancelOrderByClientId e x

/-- The method `Instruction.MarshalBinary`. -/
def Instruction.MarshalBinary (i : Instruction) (e : Encoder) : Except EncodeError Encoder :=
  let e := WriteUint8 e i.Version
  let e := WriteUint32 e i.TypeID
  encodeImpl e i.Impl

/-! ## Account-role resolution -/

/-- Outcomes that end `SetAccounts` early. `insufficientAccounts`: the error
returned by the length guard. `indexOutOfRange`: the runtime panic of a slice
index outside its slice. -/
inductive AccountsError where
  | insufficientAccounts
  | indexOutOfRange
deriving DecidableEq, Repr

/-- The expression `accounts[instructionActIdx[k]]`; `none` stands for the
runtime panic of an index out of range. -/
def accountAt (accounts : List PublicKey) (instructionActIdx : List Nat) (k : Nat) :
    Option PublicKey :=
  match instructionActIdx[k]? with
  | none => none
  | some j => accounts[j]?

/-- The method `InstructionInitializeMarket.SetAccounts`: the receiver after
the call and the error, if any. -/
def InstructionInitializeMarket.SetAccounts (i : InstructionInitializeMarket)
    (accounts : List PublicKey) (instructionActIdx : List Nat) :
    InstructionInitializeMarket × Option AccountsError :=
  if instructionActIdx.length < 9 then (i, some .insufficientAccounts)
  else
    match (do
      let a0 ← accountAt accounts instructionActIdx 0
      let a5 ← accountAt accounts instructionActIdx 5
      let a6 ← accountAt accounts instructionActIdx 6
      let a7 ← accountAt accounts instructionActIdx 7
      let a8 ← accountAt accounts instructionActIdx 8
      pure {
        Market := ⟨a0, false, true⟩
        SPLCoinToken := ⟨a5, false, true⟩
        SPLPriceToken := ⟨a6, false, true⟩
        CoinMint := ⟨a7, false, false⟩
        PriceMint := ⟨a8, false, false⟩ } : Option InitializeMarketAccounts) with
    | none => (i, some .indexOutOfRange)
    | some acc => ({ i with Accounts := some acc }, none)

/-- The method `InstructionNewOrder.SetAccounts`: the receiver after the call
and the error, if any. -/
def InstructionNewOrder.SetAccounts (i : InstructionNewOrder)
    (accounts : List PublicKey) (instructionActIdx : List Nat) :
    InstructionNewOrder × Option AccountsError :=
  if instructionActIdx.length < 9 then (i, some .insufficientAccounts)
  else
    match (do
      let a0 ← accountAt accounts instructionActIdx 0
      let a1 ← accountAt accounts instructionActIdx 1
      let a2 ← accountAt accounts instructionActIdx 2
      let a3 ← accountAt accounts instructionActIdx 3
      let a4 ← accountAt accounts instructionActIdx 4
      let a5 ← accountAt accounts instructionActIdx 5
      let a6 ← accountAt accounts instructionActIdx 6
      let a7 ← accountAt accounts instructionActIdx 7
      let a8 ← accountAt accounts instructionActIdx 8
      pure {
        Market := ⟨a0, false, true⟩
        OpenOrders := ⟨a1, false, true⟩
        RequestQueue := ⟨a2, false, true⟩
        Payer := ⟨a3, false, true⟩
        Owner := ⟨a4, true, false⟩
        CoinVault := ⟨a5, false, true⟩
        PCVault := ⟨a6, false, true⟩
        SPLTokenProgram := ⟨a7, false, false⟩
        Rent := ⟨a8, false, false⟩
        SRMDiscountAccount := none } : Option NewOrderAccounts) with
    | none => (i, some .indexOutOfRange)
    | some acc =>
      if instructionActIdx.length ≥ 10 then
        match accountAt accounts instructionActIdx 9 with
        | none => ({ i with Accounts := some acc }, some .indexOutOfRange)
        | some a9 =>
          ({ i with Accounts := some { acc with SRMDiscountAccount := some ⟨a9, false, true⟩ } },
            none)
      else ({ i with Accounts := some acc }, none)

/-- The method `InstructionMatchOrder.SetAccounts`: the receiver after the
call and the error, if any. -/
def InstructionMatchOrder.SetAccounts (i : InstructionMatchOrder)
    (accounts : List PublicKey) (instructionActIdx : List Nat) :
    InstructionMatchOrder × Option AccountsError :=
  if instructionActIdx.length < 7 then (i, some .insufficientAccounts)
  else
    match (do
      let a0 ← accountAt accounts instructionActIdx 0
      let a1 ← accountAt accounts instructionActIdx 1
      let a2 ← accountAt accounts instructionActIdx 2
      let a3 ← accountAt accounts instructionActIdx 3
      let a4 ← accountAt accounts instructionActIdx 4
      let a5 ← accountAt accounts instructionActIdx 5
      let a6 ← accountAt accounts instructionActIdx 6
      pure {
        Market := ⟨a0, false, true⟩
        RequestQueue := ⟨a1, false, true⟩
        EventQueue := ⟨a2, false, true⟩
        Bids := ⟨a3, false, true⟩
        Asks := ⟨a4, false, true⟩
        CoinFeeReceivable := ⟨a5, false, true⟩
        PCFeeReceivable := ⟨a6, false, true⟩ } : Option MatchOrderAccounts) with
    | none => (i, some .indexOutOfRange)
    | some acc => ({ i with Accounts := some acc }, none)

/-- The loop `for itr := 0; itr < n; itr++` of
`InstructionConsumeEvents.SetAccounts`, from iteration `itr` with `k`
iterations left, appending to `out`: the slice after the loop and the panic
that stopped it, if any. -/
def appendOpenOrders (accounts : List PublicKey) (instructionActIdx : List Nat) :
    Nat → Nat → List AccountMeta → List AccountMeta × Option AccountsError
  | _, 0, out => (out, none)
  | itr, k + 1, out =>
    match accountAt accounts instructionActIdx itr with
    | none => (out, some .indexOutOfRange)
    | some a => appendOpenOrders accounts instructionActIdx (itr + 1) k (out ++ [⟨a, false, true⟩])

/-- The method `InstructionConsumeEvents.SetAccounts`: the receiver after the
call and the error, if any. -/
def InstructionConsumeEvents.SetAccounts (i : InstructionConsumeEvents)
    (accounts : List PublicKey) (instructionActIdx : List Nat) :
    InstructionConsumeEvents × Option AccountsError :=
  if instructionActIdx.length < 4 then (i, some .insufficientAccounts)
  else
    match (do
      let m ← accountAt accounts instructionActIdx (instructionActIdx.length - 4)
      let q ← accountAt accounts instructionActIdx (instructionActIdx.length - 3)
      let c ← accountAt accounts instructionActIdx (instructionActIdx.length - 2)
      let p ← accountAt accounts instructionActIdx (instructionActIdx.length - 1)
      pure {
        OpenOrders := []
        Market := ⟨m, false, true⟩
        EventQueue := ⟨q, false, true⟩
        CoinFeeReceivable := ⟨c, false, true⟩
        PCFeeReceivable := ⟨p, false, true⟩ } : Option ConsumeEventsAccounts) with
    | none => (i, some .indexOutOfRange)
    | some acc =>
      match appendOpenOrders accounts instructionActIdx 0 (instructionActIdx.length - 4)
          acc.OpenOrders with
      | (oo, e) => ({ i with Accounts := some { acc with OpenOrders := oo } }, e)

/-- The method `InstructionCancelOrder.SetAccounts`: the receiver after the
call and the error, if any. -/
def InstructionCancelOrder.SetAccounts (i : InstructionCancelOrder)
    (accounts : List PublicKey) (instructionActIdx : List Nat) :
    InstructionCancelOrder × Option AccountsError :=
  if instructionActIdx.length < 4 then (i, some .insufficientAccounts)
  else
    match (do
      let a0 ← accountAt accounts instructionActIdx 0
      let a1 ← accountAt accounts instructionActIdx 1
      let a2 ← accountAt accounts instructionActIdx 2
      let a3 ← accountAt accounts instructionActIdx 3
      pure {
        Market := ⟨a0, false, false⟩
        OpenOrders := ⟨a1, false, true⟩
        RequestQueue := ⟨a2, false, true⟩
        Owner := ⟨a3, true, false⟩ } : Option CancelOrderAccounts) with
    | none => (i, some .indexOutOfRange)
    | some acc => ({ i with Accounts := some acc }, none)

/-- The method `InstructionSettleFunds.SetAccounts`: the receiver after the
call and the error, if any. -/
def InstructionSettleFunds.SetAccounts (i : InstructionSettleFunds)
    (accounts : List PublicKey) (instructionActIdx : List Nat) :
    InstructionSettleFunds × Option AccountsError :=
  if instructionActIdx.length < 9 then (i, some .insufficientAccounts)
  else
    match (do
      let a0 ← accountAt accounts instructionActIdx 0
      let a1 ← accountAt accounts instructionActIdx 1
      let a2 ← accountAt accounts instructionActIdx 2
      let a3 ← accountAt accounts instructionActIdx 3
      let a4 ← accountAt accounts instructionActIdx 4
      let a5 ← accountAt accounts instructionActIdx 5
      let a6 ← accountAt accounts instructionActIdx 6
      let a7 ← accountAt accounts instructionActIdx 7
      let a8 ← accountAt accounts instructionActIdx 8
      pure {
        Market := ⟨a0, false, true⟩
        OpenOrders := ⟨a1, false, true⟩
        Owner := ⟨a2, true, false⟩
        CoinVault := ⟨a3, false, true⟩
        PCVault := ⟨a4, false, true⟩
        CoinWallet := ⟨a5, false, true⟩
        PCWallet := ⟨a6, false, true⟩
        Signer := ⟨a7, false, false⟩
        SPLTokenProgram := ⟨a8, false, false⟩
        ReferrerPCWallet := none } : Option SettleFundsAccounts) with
    | none => (i, some .indexOutOfRange)
    | some acc =>
      if instructionActIdx.length ≥ 10 then
        match accountAt accounts instructionActIdx 9 with
        | none => ({ i with Accounts := some acc }, some .indexOutOfRange)
        | some a9 =>
          ({ i with Accounts := some { acc with ReferrerPCWallet := some ⟨a9, false, true⟩ } },
            none)
      else ({ i with Accounts := some acc }, none)

/-- The method `InstructionCancelOrderByClientId.SetAccounts`: the receiver
after the call and the error, if any. -/
def InstructionCancelOrderByClientId.SetAccounts (i : InstructionCancelOrderByClientId)
    (accounts : List PublicKey) (instructionActIdx : List Nat) :
    InstructionCancelOrderByClientId × Option AccountsError :=
  if instructionActIdx.length < 4 then (i, some .insufficientAccounts)
  else
    match (do
      let a0 ← accountAt accounts instructionActIdx 0
      let a1 ← accountAt accounts instructionActIdx 1
      let a2 ← accountAt accounts instructionActIdx 2
      let a3 ← accountAt accounts instructionActIdx 3
      pure {
        Market := ⟨a0, false, false⟩
        OpenOrders := ⟨a1, false, true⟩
        RequestQueue := ⟨a2, false, true⟩
        Owner := ⟨a3, true, false⟩ } : Option CancelOrderByClientIdAccounts) with
    | none => (i, some .indexOutOfRange)
    | some acc => ({ i with Accounts := some acc }, none)

/-- The interface call `v.SetAccounts(...)` on the dynamic value of `Impl`;
all seven payload types have the method. -/
def Impl.SetAccounts (impl : Impl) (accounts : List PublicKey) (instructionActIdx : List Nat) :
    Impl × Option AccountsError :=
  match impl with
  | .initializeMarket x =>
    ((fun r => (Impl.initializeMarket r.1, r.2)) (x.SetAccounts accounts instructionActIdx))
  | .newOrder x => ((fun r => (Impl.newOrder r.1, r.2)) (x.SetAccounts accounts instructionActIdx))
  | .matchOrder x =>
    ((fun r => (Impl.matchOrder r.1, r.2)) (x.SetAccounts accounts instructionActIdx))
  | .consumeEvents x =>
    ((fun r => (Impl.consumeEvents r.1, r.2)) (x.SetAccounts accounts instructionActIdx))
  | .cancelOrder x =>
    ((fun r => (Impl.cancelOrder r.1, r.2)) (x.SetAccounts accounts instructionActIdx))
  | .settleFunds x =>
    ((fun r => (Impl.settleFunds r.1, r.2)) (x.SetAccounts accounts instructionActIdx))
  | .cancelOrderByClientId x =>
    ((fun r => (Impl.cancelOrderByClientId r.1, r.2)) (x.SetAccounts accounts instructionActIdx))

/-- The struct `solana.CompiledInstruction`, its two fields read here. -/
structure CompiledInstruction where
  Accounts : List Nat
  Data : List Byte
deriving DecidableEq, Repr

/-- Errors of `DecodeInstruction`, by the step that wrapped them;
`setAccounts .indexOutOfRange` stands for the panic of `SetAccounts` leaving
`DecodeInstruction`. -/
inductive InstructionError where
  | decode (e : DecodeError)
  | setAccounts (e : AccountsError)
deriving DecidableEq, Repr

/-- The function `DecodeInstruction`. -/
def DecodeInstruction (accounts : List PublicKey) (compiledInstruction : CompiledInstruction) :
    Except InstructionError Instruction :=
  match Instruction.UnmarshalBinary compiledInstruction.Data with
  | .error e => .error (.decode e)
  | .ok (inst, _) =>
    match inst.Impl.SetAccounts accounts compiledInstruction.Accounts with
    | (_, some e) => .error (.setAccounts e)
    | (impl, none) => .ok { inst with Impl := impl }

/-! ## Named roles of the fixed-role structures -/

/-- The named roles of `InitializeMarketAccounts`, in declared order. -/
def InitializeMarketAccounts.roles (a : InitializeMarketAccounts) :
    List (String × AccountMeta) :=
  [("Market", a.Market), ("SPLCoinToken", a.SPLCoinToken),
   ("SPLPriceToken", a.SPLPriceToken), ("CoinMint", a.CoinMint), ("PriceMint", a.PriceMint)]

/-- The named roles of `MatchOrderAccounts`, in declared order. -/
def MatchOrderAccounts.roles (a : MatchOrderAccounts) : List (String × AccountMeta) :=
  [("Market", a.Market), ("RequestQueue", a.RequestQueue), ("EventQueue", a.EventQueue),
   ("Bids", a.Bids), ("Asks", a.Asks), ("CoinFeeReceivable", a.CoinFeeReceivable),
   ("PCFeeReceivable", a.PCFeeReceivable)]

/-- The named roles of `CancelOrderAccounts`, in declared order. -/
def CancelOrderAccounts.roles (a : CancelOrderAccounts) : List (String × AccountMeta) :=
  [("Market", a.Market), ("OpenOrders", a.OpenOrders), ("RequestQueue", a.RequestQueue),
   ("Owner", a.Owner)]

/-- The named roles of `CancelOrderByClientIdAccounts`, in declared order. -/
def CancelOrderByClientIdAccounts.roles (a : CancelOrderByClientIdAccounts) :
    List (String × AccountMeta) :=
  [("Market", a.Market), ("OpenOrders", a.OpenOrders), ("RequestQueue", a.RequestQueue),
   ("Owner", a.Owner)]

/-! ## Codec lemmas -/

theorem readLE_ok {n : Nat} {d : Decoder} (h : n ≤ d.length) :
    readLE n d = .ok (leVal (d.take n), d.drop n) := by
  unfold readLE
  rw [if_neg (by omega)]

theorem readLE_short {n : Nat} {d : Decoder} (h : d.length < n) :
    readLE n d = .error .truncated := by
  unfold readLE
  rw [if_pos h]

theorem table_none {t : Nat} (h : 7 ≤ t) : InstructionDefVariant[t]? = none := by
  apply List.getElem?_eq_none
  simpa [InstructionDefVariant] using h

/-- The envelope on a buffer of at least five bytes. -/
theorem UnmarshalBinary_envelope (buf : List Byte) (hlen : 5 ≤ buf.length) :
    Instruction.UnmarshalBinary buf =
      match InstructionDefVariant[leVal ((buf.drop 1).take 4)]? with
      | none => .error (.unknownVariant (leVal ((buf.drop 1).take 4)))
      | some (_, t) =>
        match decodeImpl t (buf.drop 5) with
        | .error e => .error e
        | .ok (impl, rest) =>
          .ok (⟨⟨leVal ((buf.drop 1).take 4), impl⟩, leVal (buf.take 1)⟩, rest) := by
  have h1 : (1:Nat) ≤ buf.length := by omega
  have h4 : 4 ≤ (buf.drop 1).length := by rw [List.length_drop]; omega
  simp only [Instruction.UnmarshalBinary, UnmarshalBinaryVariant, ReadUint8, ReadUint32,
    readLE_ok h1, readLE_ok h4, bind, Except.bind, List.drop_drop]
  cases hT : InstructionDefVariant[leVal ((buf.drop 1).take 4)]? with
  | none => rfl
  | some p =>
    obtain ⟨nm, t⟩ := p
    simp only []
    cases hI : decodeImpl t (buf.drop 5) with
    | error e => simp [hI]
    | ok r => simp [hI, pure, Except.pure]
theorem readLE_bind {β : Type} (n : Nat) (d : Decoder)
    (f : Nat × Decoder → Except DecodeError β) :
    (readLE n d >>= f) =
      if d.length < n then .error .truncated else f (leVal (d.take n), d.drop n) := by
  unfold readLE
  split <;> rfl

theorem decodeNewOrder_ok (p : List Byte) (h : 32 ≤ p.length) :
    decodeNewOrder p = .ok (⟨⟨leVal (p.take 4)⟩, leVal ((p.drop 4).take 8),
      leVal ((p.drop 12).take 8), ⟨leVal ((p.drop 20).take 4)⟩, leVal ((p.drop 24).take 8),
      none⟩, p.drop 32) := by
  simp only [decodeNewOrder, ReadUint32, ReadUint64, readLE_bind, skippedField,
    List.length_drop, List.drop_drop]
  rw [if_neg (by omega), if_neg (by omega), if_neg (by omega), if_neg (by omega),
    if_neg (by omega)]
  rfl

theorem decodeNewOrder_short (p : List Byte) (h : p.length < 32) :
    decodeNewOrder p = .error .truncated := by
  simp only [decodeNewOrder, ReadUint32, ReadUint64, readLE_bind, skippedField,
    List.length_drop, List.drop_drop]
  split_ifs <;> first | rfl | omega
theorem ReadUint128_bind {β : Type} (d : Decoder)
    (f : Uint128 × Decoder → Except DecodeError β) :
    (ReadUint128 d >>= f) =
      if d.length < 16 then .error .truncated
      else f (⟨leVal (d.take 8), leVal ((d.drop 8).take 8)⟩, d.drop 16) := by
  unfold ReadUint128
  split <;> rfl

theorem ReadPublicKey_bind {β : Type} (d : Decoder)
    (f : PublicKey × Decoder → Except DecodeError β) :
    (ReadPublicKey d >>= f) =
      if d.length < 32 then .error .truncated else f (d.take 32, d.drop 32) := by
  unfold ReadPublicKey
  split <;> rfl

theorem decodeInitializeMarket_ok (p : List Byte) (h : 34 ≤ p.length) :
    decodeInitializeMarket p = .ok (⟨leVal (p.take 8), leVal ((p.drop 8).take 8),
      leVal ((p.drop 16).take 2), leVal ((p.drop 18).take 8), leVal ((p.drop 26).take 8),
      none⟩, p.drop 34) := by
  simp only [decodeInitializeMarket, ReadUint16, ReadUint64, readLE_bind, skippedField,
    List.length_drop, List.drop_drop]
  rw [if_neg (by omega), if_neg (by omega), if_neg (by omega), if_neg (by omega),
    if_neg (by omega)]
  rfl

theorem decodeInitializeMarket_short (p : List Byte) (h : p.length < 34) :
    decodeInitializeMarket p = .error .truncated := by
  simp only [decodeInitializeMarket, ReadUint16, ReadUint64, readLE_bind, skippedField,
    List.length_drop, List.drop_drop]
  split_ifs <;> first | rfl | omega

theorem decodeMatchOrder_ok (p : List Byte) (h : 2 ≤ p.length) :
    decodeMatchOrder p = .ok (⟨leVal (p.take 2), none⟩, p.drop 2) := by
  simp only [decodeMatchOrder, ReadUint16, readLE_bind, skippedField]
  rw [if_neg (by omega)]
  rfl

theorem decodeMatchOrder_short (p : List Byte) (h : p.length < 2) :
    decodeMatchOrder p = .error .truncated := by
  simp only [decodeMatchOrder, ReadUint16, readLE_bind, skippedField]
  rw [if_pos h]

theorem decodeConsumeEvents_ok (p : List Byte) (h : 2 ≤ p.length) :
    decodeConsumeEvents p = .ok (⟨leVal (p.take 2), none⟩, p.drop 2) := by
  simp only [decodeConsumeEvents, ReadUint16, readLE_bind, skippedField]
  rw [if_neg (by omega)]
  rfl

theorem decodeConsumeEvents_short (p : List Byte) (h : p.length < 2) :
    decodeConsumeEvents p = .error .truncated := by
  simp only [decodeConsumeEvents, ReadUint16, readLE_bind, skippedField]
  rw [if_pos h]

theorem decodeCancelOrder_ok (p : List Byte) (h : 53 ≤ p.length) :
    decodeCancelOrder p = .ok (⟨leVal (p.take 4),
      ⟨leVal ((p.drop 4).take 8), leVal ((p.drop 12).take 8)⟩, (p.drop 20).take 32,
      leVal ((p.drop 52).take 1), none⟩, p.drop 53) := by
  simp only [decodeCancelOrder, ReadUint32, ReadUint8, readLE_bind, ReadUint128_bind,
    ReadPublicKey_bind, skippedField, List.length_drop, List.drop_drop]
  rw [if_neg (by omega), if_neg (by omega), if_neg (by omega), if_neg (by omega)]
  rfl

theorem decodeCancelOrder_short (p : List Byte) (h : p.length < 53) :
    decodeCancelOrder p = .error .truncated := by
  simp only [decodeCancelOrder, ReadUint32, ReadUint8, readLE_bind, ReadUint128_bind,
    ReadPublicKey_bind, skippedField, List.length_drop, List.drop_drop]
  split_ifs <;> first | rfl | omega

theorem decodeSettleFunds_ok (p : List Byte) :
    decodeSettleFunds p = .ok (⟨none⟩, p) := rfl

theorem ReadBool_bind {β : Type} (d : Decoder)
    (f : Bool × Decoder → Except DecodeError β) :
    (ReadBool d >>= f) =
      if d.length < 1 then .error .truncated else f (leVal (d.take 1) != 0, d.drop 1) := by
  unfold ReadBool ReadUint8 readLE
  split <;> rfl

theorem decodeAccountMeta_bind {β : Type} (d : Decoder)
    (f : AccountMeta × Decoder → Except DecodeError β) :
    (decodeAccountMeta d >>= f) =
      if d.length < 34 then .error .truncated
      else f (⟨d.take 32, leVal ((d.drop 32).take 1) != 0, leVal ((d.drop 33).take 1) != 0⟩,
        d.drop 34) := by
  unfold decodeAccountMeta
  simp only [bind_assoc, pure_bind]
  simp only [ReadPublicKey_bind, ReadBool_bind, List.length_drop, List.drop_drop]
  split_ifs <;> first | rfl | omega

theorem decodeCancelOrderByClientIdAccounts_short (d : Decoder) (h : d.length < 136) :
    decodeCancelOrderByClientIdAccounts d = .error .truncated := by
  simp only [decodeCancelOrderByClientIdAccounts, decodeAccountMeta_bind,
    List.length_drop, List.drop_drop]
  split_ifs <;> first | rfl | omega

theorem decodeCancelOrderByClientId_short (p : List Byte) (h : p.length < 144) :
    decodeCancelOrderByClientId p = .error .truncated := by
  simp only [decodeCancelOrderByClientId, ReadUint64, readLE_bind]
  split_ifs with h8
  · rfl
  · rw [decodePtrField,
      decodeCancelOrderByClientIdAccounts_short _ (by rw [List.length_drop]; omega)]
    rfl

theorem decodeCancelOrderByClientId_ok (p : List Byte) (h : 144 ≤ p.length) :
    decodeCancelOrderByClientId p = .ok (⟨leVal (p.take 8), some
      ⟨⟨(p.drop 8).take 32, leVal ((p.drop 40).take 1) != 0, leVal ((p.drop 41).take 1) != 0⟩,
       ⟨(p.drop 42).take 32, leVal ((p.drop 74).take 1) != 0, leVal ((p.drop 75).take 1) != 0⟩,
       ⟨(p.drop 76).take 32, leVal ((p.drop 108).take 1) != 0,
         leVal ((p.drop 109).take 1) != 0⟩,
       ⟨(p.drop 110).take 32, leVal ((p.drop 142).take 1) != 0,
         leVal ((p.drop 143).take 1) != 0⟩⟩⟩, p.drop 144) := by
  simp only [decodeCancelOrderByClientId, ReadUint64, readLE_bind, decodePtrField,
    decodeCancelOrderByClientIdAccounts, decodeAccountMeta_bind,
    List.length_drop, List.drop_drop]
  rw [if_neg (by omega), if_neg (by omega), if_neg (by omega), if_neg (by omega),
    if_neg (by omega)]
  rfl

/-! ## The envelope: unknown variants, truncation, agreement -/
theorem UnmarshalBinary_short (buf : List Byte) (h : buf.length < 5) :
    Instruction.UnmarshalBinary buf = .error .truncated := by
  simp only [Instruction.UnmarshalBinary, UnmarshalBinaryVariant, ReadUint8, ReadUint32,
    bind_assoc, readLE_bind, List.length_drop]
  split_ifs <;> first | rfl | omega

theorem DecodeInstruction_decode_error (accounts : List PublicKey) (idx : List Nat)
    (buf : List Byte) (e : DecodeError) (h : Instruction.UnmarshalBinary buf = .error e) :
    DecodeInstruction accounts ⟨idx, buf⟩ = .error (.decode e) := by
  simp only [DecodeInstruction, h]

theorem decodeImpl_variantType (t : VariantType) (d : Decoder) (impl : Impl) (rest : Decoder)
    (h : decodeImpl t d = .ok (impl, rest)) : impl.variantType = t := by
  cases t <;> simp only [decodeImpl, Except.map] at h <;> split at h <;>
    first
    | (simp only [Except.ok.injEq, Prod.mk.injEq] at h; obtain ⟨h1, _⟩ := h; subst h1; rfl)
    | (exact absurd h (by simp))

/-- C2: every buffer of at least five bytes whose little-endian type ID is
outside 0..6 is rejected with the unknown-variant error. -/
theorem unmarshal_unknown_variant (buf : List Byte) (hlen : 5 ≤ buf.length)
    (hd : leVal ((buf.drop 1).take 4) ∉ [0, 1, 2, 3, 4, 5, 6]) :
    Instruction.UnmarshalBinary buf = .error (.unknownVariant (leVal ((buf.drop 1).take 4))) := by
  have h7 : 7 ≤ leVal ((buf.drop 1).take 4) := by
    simp only [List.mem_cons, List.mem_singleton, List.not_mem_nil, or_false, not_or] at hd
    omega
  rw [UnmarshalBinary_envelope buf hlen, table_none h7]

theorem unmarshal_unknown_variant_witness :
    Instruction.UnmarshalBinary [3, 7, 0, 0, 0, 1, 2] = .error (.unknownVariant 7) :=
  unmarshal_unknown_variant [3, 7, 0, 0, 0, 1, 2] (by decide) (by decide)
theorem leVal_append (a b : List Byte) :
    leVal (a ++ b) = leVal a + 256 ^ a.length * leVal b := by
  induction a with
  | nil => simp [leVal]
  | cons x xs ih =>
    show x.val + 256 * leVal (xs ++ b) =
      (x.val + 256 * leVal xs) + 256 ^ (xs.length + 1) * leVal b
    rw [ih, pow_succ]
    ring

theorem leVal_lt (a : List Byte) : leVal a < 256 ^ a.length := by
  induction a with
  | nil => simp [leVal]
  | cons x xs ih =>
    simp only [leVal, List.length_cons, pow_succ]
    have := x.isLt
    omega

/-- C3: a buffer shorter than the five-byte envelope, or shorter than the
envelope plus the field widths of the variant its type ID selects, is rejected
with the truncated-input error, and `DecodeInstruction` returns no instruction
for it. -/
theorem unmarshal_truncated (buf : List Byte)
    (h : buf.length < 5 ∨
      ∃ d W, (d, W) ∈ [(0, 34), (1, 32), (2, 2), (3, 2), (4, 53), (5, 0), (6, 8)] ∧
        leVal ((buf.drop 1).take 4) = d ∧ buf.length < 5 + W) :
    Instruction.UnmarshalBinary buf = .error .truncated ∧
    ∀ (accounts : List PublicKey) (idx : List Nat),
      DecodeInstruction accounts ⟨idx, buf⟩ = .error (.decode .truncated) := by
  have key : Instruction.UnmarshalBinary buf = .error .truncated := by
    by_cases hlen : buf.length < 5
    · exact UnmarshalBinary_short buf hlen
    · have h5 : 5 ≤ buf.length := by omega
      rcases h with h | ⟨d, W, hmem, hd, hW⟩
      · exact absurd h hlen
      · have hp : (buf.drop 5).length = buf.length - 5 := List.length_drop 5 buf
        rw [UnmarshalBinary_envelope buf h5, hd]
        simp only [List.mem_cons, Prod.mk.injEq, List.mem_singleton, List.not_mem_nil,
          or_false] at hmem
        rcases hmem with ⟨rfl, rfl⟩ | ⟨rfl, rfl⟩ | ⟨rfl, rfl⟩ | ⟨rfl, rfl⟩ | ⟨rfl, rfl⟩ |
          ⟨rfl, rfl⟩ | ⟨rfl, rfl⟩
        · simp only [InstructionDefVariant, List.getElem?_cons_zero, decodeImpl,
            decodeInitializeMarket_short _ (show (buf.drop 5).length < 34 by omega), Except.map]
        · simp only [InstructionDefVariant, List.getElem?_cons_succ, List.getElem?_cons_zero,
            decodeImpl,
            decodeNewOrder_short _ (show (buf.drop 5).length < 32 by omega), Except.map]
        · simp only [InstructionDefVariant, List.getElem?_cons_succ, List.getElem?_cons_zero,
            decodeImpl,
            decodeMatchOrder_short _ (show (buf.drop 5).length < 2 by omega), Except.map]
        · simp only [InstructionDefVariant, List.getElem?_cons_succ, List.getElem?_cons_zero,
            decodeImpl,
            decodeConsumeEvents_short _ (show (buf.drop 5).length < 2 by omega), Except.map]
        · simp only [InstructionDefVariant, List.getElem?_cons_succ, List.getElem?_cons_zero,
            decodeImpl,
            decodeCancelOrder_short _ (show (buf.drop 5).length < 53 by omega), Except.map]
        · omega
        · simp only [InstructionDefVariant, List.getElem?_cons_succ, List.getElem?_cons_zero,
            decodeImpl,
            decodeCancelOrderByClientId_short _ (show (buf.drop 5).length < 144 by omega),
            Except.map]
  exact ⟨key, fun accounts idx => DecodeInstruction_decode_error accounts idx buf _ key⟩

theorem unmarshal_truncated_witness :
    ([9, 4, 0, 0, 0, 1, 2, 3] : List Byte).length < 5 + 53 ∧
    Instruction.UnmarshalBinary [9, 4, 0, 0, 0, 1, 2, 3] = .error .truncated ∧
    DecodeInstruction [] ⟨[], [9, 4, 0, 0, 0, 1, 2, 3]⟩ = .error (.decode .truncated) :=
  ⟨by decide,
   (unmarshal_truncated [9, 4, 0, 0, 0, 1, 2, 3]
      (Or.inr ⟨4, 53, by decide, by decide, by decide⟩)).1,
   (unmarshal_truncated [9, 4, 0, 0, 0, 1, 2, 3]
      (Or.inr ⟨4, 53, by decide, by decide, by decide⟩)).2 [] []⟩

set_option maxRecDepth 100000 in
/-- C4: a 13-byte buffer with type ID 6 and an eight-byte payload is
rejected with the truncated-input error: after `ClientID` the decoder goes on
to read the untagged `Accounts` field from the cursor. With 136 further bytes
the same buffer decodes, and the role structure is filled from those bytes. -/
theorem unmarshal_cancelOrderByClientId_13_bytes (v b0 b1 b2 b3 b4 b5 b6 b7 : Byte) :
    Instruction.UnmarshalBinary [v, 6, 0, 0, 0, b0, b1, b2, b3, b4, b5, b6, b7] =
      .error .truncated ∧
    Instruction.UnmarshalBinary
      ([v, 6, 0, 0, 0, b0, b1, b2, b3, b4, b5, b6, b7] ++ List.replicate 136 1) =
      .ok (⟨⟨6, .cancelOrderByClientId ⟨leVal [b0, b1, b2, b3, b4, b5, b6, b7], some
        ⟨⟨List.replicate 32 1, true, true⟩, ⟨List.replicate 32 1, true, true⟩,
         ⟨List.replicate 32 1, true, true⟩, ⟨List.replicate 32 1, true, true⟩⟩⟩⟩,
        leVal [v]⟩, []) := by
  constructor
  · rw [UnmarshalBinary_envelope _ (by simp)]
    simp only [List.drop_succ_cons, List.drop_zero]
    have hd : leVal (List.take 4 [(6 : Byte), 0, 0, 0, b0, b1, b2, b3, b4, b5, b6, b7]) = 6 := by
      rfl
    rw [hd]
    simp only [InstructionDefVariant, List.getElem?_cons_succ, List.getElem?_cons_zero,
      decodeImpl, decodeCancelOrderByClientId_short [b0, b1, b2, b3, b4, b5, b6, b7] (by simp),
      Except.map]
  · rfl

theorem leVal_take_one (l : List Byte) :
    l.head?.map Fin.val = if l = [] then none else some (leVal (l.take 1)) := by
  cases l with
  | nil => rfl
  | cons b bs => simp [leVal]

/-- C5: on every buffer that decodes, the stored type ID is the
little-endian `uint32` of bytes 1..4, the stored version is byte 0, and the
payload (a single value of the `Impl` sum) has the type that the variant table
lists at that ID. -/
theorem unmarshal_variant_agreement (buf : List Byte) (inst : Instruction) (rest : Decoder)
    (h : Instruction.UnmarshalBinary buf = .ok (inst, rest)) :
    5 ≤ buf.length ∧
    inst.TypeID = leVal ((buf.drop 1).take 4) ∧
    buf.head?.map Fin.val = some inst.Version ∧
    (InstructionDefVariant[inst.TypeID]?).map Prod.snd = some inst.Impl.variantType ∧
    (inst.TypeID, inst.Impl.variantType) ∈
      [(0, VariantType.InstructionInitializeMarket), (1, VariantType.InstructionNewOrder),
       (2, VariantType.InstructionMatchOrder), (3, VariantType.InstructionConsumeEvents),
       (4, VariantType.InstructionCancelOrder), (5, VariantType.InstructionSettleFunds),
       (6, VariantType.InstructionCancelOrderByClientId)] := by
  by_cases hlen : buf.length < 5
  · rw [UnmarshalBinary_short buf hlen] at h
    exact absurd h (by simp)
  have h5 : 5 ≤ buf.length := by omega
  rw [UnmarshalBinary_envelope buf h5] at h
  cases hT : InstructionDefVariant[leVal ((buf.drop 1).take 4)]? with
  | none =>
    rw [hT] at h
    exact absurd h (by simp)
  | some p =>
    obtain ⟨nm, t⟩ := p
    rw [hT] at h
    simp only [] at h
    cases hI : decodeImpl t (buf.drop 5) with
    | error e =>
      rw [hI] at h
      exact absurd h (by simp)
    | ok r =>
      obtain ⟨impl, r2⟩ := r
      rw [hI] at h
      simp only [Except.ok.injEq, Prod.mk.injEq] at h
      obtain ⟨hinst, _⟩ := h
      subst hinst
      have hvt : impl.variantType = t := decodeImpl_variantType t _ impl r2 hI
      have hne : buf ≠ [] := by
        intro hb
        rw [hb] at h5
        simp at h5
      have hlt : leVal ((buf.drop 1).take 4) < 7 := by
        by_contra hge
        rw [table_none (by omega)] at hT
        exact absurd hT (by simp)
      refine ⟨h5, rfl, ?_, ?_, ?_⟩
      · rw [leVal_take_one, if_neg hne]
      · show (InstructionDefVariant[leVal ((buf.drop 1).take 4)]?).map Prod.snd =
          some impl.variantType
        rw [hT, hvt]
        rfl
      · show (leVal ((buf.drop 1).take 4), impl.variantType) ∈ _
        rw [hvt]
        generalize leVal ((buf.drop 1).take 4) = d at hT hlt
        interval_cases d <;> simp [InstructionDefVariant] at hT <;> obtain ⟨_, rfl⟩ := hT <;>
          simp

theorem unmarshal_variant_agreement_witness :
    Instruction.UnmarshalBinary [2, 3, 0, 0, 0, 7, 1] =
      .ok (⟨⟨3, .consumeEvents ⟨263, none⟩⟩, 2⟩, []) ∧
    (3, VariantType.InstructionConsumeEvents) ∈
      [(0, VariantType.InstructionInitializeMarket), (1, VariantType.InstructionNewOrder),
       (2, VariantType.InstructionMatchOrder), (3, VariantType.InstructionConsumeEvents),
       (4, VariantType.InstructionCancelOrder), (5, VariantType.InstructionSettleFunds),
       (6, VariantType.InstructionCancelOrderByClientId)] :=
  ⟨rfl,
   (unmarshal_variant_agreement [2, 3, 0, 0, 0, 7, 1]
      ⟨⟨3, .consumeEvents ⟨263, none⟩⟩, 2⟩ [] rfl).2.2.2.2⟩

/-! ## Wire layouts -/
/-- C6: a buffer of at least 37 bytes with type ID 1 decodes to a NewOrder
whose fields are the little-endian reads of the payload at offsets 0, 4, 12,
20 and 24; `Side` and `OrderType` hold the raw wire integers whatever their
value, and the raw values 2 and 5 are labelled UNKNOWN. -/
theorem unmarshal_newOrder_layout (buf : List Byte) (hlen : 37 ≤ buf.length)
    (hd : leVal ((buf.drop 1).take 4) = 1) :
    Instruction.UnmarshalBinary buf =
      .ok (⟨⟨1, .newOrder
        { Side := ⟨leVal ((buf.drop 5).take 4)⟩
          LimitPrice := leVal (((buf.drop 5).drop 4).take 8)
          MaxQuantity := leVal (((buf.drop 5).drop 12).take 8)
          OrderType := ⟨leVal (((buf.drop 5).drop 20).take 4)⟩
          ClientID := leVal (((buf.drop 5).drop 24).take 8)
          Accounts := none }⟩, leVal (buf.take 1)⟩, buf.drop 37) ∧
    Side.String ⟨2⟩ = "UNKNOWN" ∧ OrderType.String ⟨5⟩ = "UNKNOWN" := by
  refine ⟨?_, rfl, rfl⟩
  have hp : 32 ≤ (buf.drop 5).length := by rw [List.length_drop]; omega
  rw [UnmarshalBinary_envelope buf (by omega), hd]
  simp only [InstructionDefVariant, List.getElem?_cons_succ, List.getElem?_cons_zero,
    decodeImpl, decodeNewOrder_ok _ hp, Except.map, List.drop_drop]

theorem unmarshal_newOrder_layout_witness :
    Instruction.UnmarshalBinary
      [0, 1, 0, 0, 0, 2, 0, 0, 0, 184, 6, 0, 0, 0, 0, 0, 0, 16, 235, 9, 0, 0, 0, 0, 0,
       5, 0, 0, 0, 7, 0, 0, 0, 0, 0, 0, 0, 1, 0, 0, 0] =
      .ok (⟨⟨1, .newOrder ⟨⟨2⟩, 1720, 650000, ⟨5⟩, 7, none⟩⟩, 0⟩, [1, 0, 0, 0]) ∧
    Side.String ⟨2⟩ = "UNKNOWN" ∧ OrderType.String ⟨5⟩ = "UNKNOWN" :=
  unmarshal_newOrder_layout
    [0, 1, 0, 0, 0, 2, 0, 0, 0, 184, 6, 0, 0, 0, 0, 0, 0, 16, 235, 9, 0, 0, 0, 0, 0,
     5, 0, 0, 0, 7, 0, 0, 0, 0, 0, 0, 0, 1, 0, 0, 0] (by decide) (by decide)

theorem leVal_take_add (l : List Byte) (m n : Nat) (h : m ≤ l.length) :
    leVal (l.take (m + n)) = leVal (l.take m) + 256 ^ m * leVal ((l.drop m).take n) := by
  rw [List.take_add, leVal_append, List.length_take, Nat.min_eq_left h]

theorem getElem?_eq_leVal (l : List Byte) (k : Nat) (h : k < l.length) :
    l[k]?.map Fin.val = some (leVal ((l.drop k).take 1)) := by
  have hne : l.drop k ≠ [] := by
    intro hn
    have := congrArg List.length hn
    rw [List.length_drop] at this
    simp at this
    omega
  have := leVal_take_one (l.drop k)
  rw [if_neg hne] at this
  rw [← this, List.head?_drop]

/-- C7: a buffer of at least 58 bytes with type ID 4 decodes to a
CancelOrder whose side is the plain little-endian `uint32` of payload bytes
0..4 for every value, whose order ID is the 128-bit little-endian value of
bytes 4..20, whose openOrders key is bytes 20..52 unchanged and whose slot is
byte 52. -/
theorem unmarshal_cancelOrder_layout (buf : List Byte) (hlen : 58 ≤ buf.length)
    (hd : leVal ((buf.drop 1).take 4) = 4) :
    Instruction.UnmarshalBinary buf =
      .ok (⟨⟨4, .cancelOrder
        { Side := leVal ((buf.drop 5).take 4)
          OrderID := ⟨leVal (((buf.drop 5).drop 4).take 8), leVal (((buf.drop 5).drop 12).take 8)⟩
          OpenOrders := ((buf.drop 5).drop 20).take 32
          OpenOrderSlot := leVal (((buf.drop 5).drop 52).take 1)
          Accounts := none }⟩, leVal (buf.take 1)⟩, buf.drop 58) ∧
    Uint128.toNat ⟨leVal (((buf.drop 5).drop 4).take 8), leVal (((buf.drop 5).drop 12).take 8)⟩ =
      leVal (((buf.drop 5).drop 4).take 16) ∧
    (buf.drop 5)[52]?.map Fin.val = some (leVal (((buf.drop 5).drop 52).take 1)) := by
  have hp : 53 ≤ (buf.drop 5).length := by rw [List.length_drop]; omega
  refine ⟨?_, ?_, ?_⟩
  · rw [UnmarshalBinary_envelope buf (by omega), hd]
    simp only [InstructionDefVariant, List.getElem?_cons_succ, List.getElem?_cons_zero,
      decodeImpl, decodeCancelOrder_ok _ hp, Except.map, List.drop_drop]
  · show leVal (((buf.drop 5).drop 4).take 8) + 2 ^ 64 * leVal (((buf.drop 5).drop 12).take 8) =
      leVal (((buf.drop 5).drop 4).take (8 + 8))
    rw [leVal_take_add _ 8 8 (by rw [List.length_drop]; omega)]
    simp only [List.drop_drop]
    norm_num
  · exact getElem?_eq_leVal _ 52 (by omega)

theorem unmarshal_cancelOrder_layout_witness :
    Instruction.UnmarshalBinary
      ([7, 4, 0, 0, 0, 2, 0, 0, 0, 1, 0, 0, 0, 0, 0, 0, 0, 1, 0, 0, 0, 0, 0, 0, 0] ++
        List.replicate 32 9 ++ [3]) =
      .ok (⟨⟨4, .cancelOrder ⟨2, ⟨1, 1⟩, List.replicate 32 9, 3, none⟩⟩, 7⟩, []) ∧
    Uint128.toNat ⟨1, 1⟩ = 2 ^ 64 + 1 :=
  ⟨(unmarshal_cancelOrder_layout
      ([7, 4, 0, 0, 0, 2, 0, 0, 0, 1, 0, 0, 0, 0, 0, 0, 0, 1, 0, 0, 0, 0, 0, 0, 0] ++
        List.replicate 32 9 ++ [3]) (by decide) (by decide)).1, by decide⟩

/-- C8: a buffer of at least 39 bytes with type ID 0 decodes to an
InitializeMarket whose fields are the little-endian reads of the payload at
offsets 0, 8, 16, 18 and 26, with no padding between them. -/
theorem unmarshal_initializeMarket_layout (buf : List Byte) (hlen : 39 ≤ buf.length)
    (hd : leVal ((buf.drop 1).take 4) = 0) :
    Instruction.UnmarshalBinary buf =
      .ok (⟨⟨0, .initializeMarket
        { BaseLotSize := leVal ((buf.drop 5).take 8)
          QuoteLotSize := leVal (((buf.drop 5).drop 8).take 8)
          FeeRateBps := leVal (((buf.drop 5).drop 16).take 2)
          VaultSignerNonce := leVal (((buf.drop 5).drop 18).take 8)
          QuoteDustThreshold := leVal (((buf.drop 5).drop 26).take 8)
          Accounts := none }⟩, leVal (buf.take 1)⟩, buf.drop 39) := by
  have hp : 34 ≤ (buf.drop 5).length := by rw [List.length_drop]; omega
  rw [UnmarshalBinary_envelope buf (by omega), hd]
  simp only [InstructionDefVariant, List.getElem?_cons_zero,
    decodeImpl, decodeInitializeMarket_ok _ hp, Except.map, List.drop_drop]

theorem unmarshal_initializeMarket_layout_witness :
    Instruction.UnmarshalBinary
      [0, 0, 0, 0, 0, 1, 0, 0, 0, 0, 0, 0, 0, 2, 0, 0, 0, 0, 0, 0, 0, 3, 1,
       4, 0, 0, 0, 0, 0, 0, 0, 5, 0, 0, 0, 0, 0, 0, 0] =
      .ok (⟨⟨0, .initializeMarket ⟨1, 2, 259, 4, 5, none⟩⟩, 0⟩, []) :=
  unmarshal_initializeMarket_layout
    [0, 0, 0, 0, 0, 1, 0, 0, 0, 0, 0, 0, 0, 2, 0, 0, 0, 0, 0, 0, 0, 3, 1,
     4, 0, 0, 0, 0, 0, 0, 0, 5, 0, 0, 0, 0, 0, 0, 0] (by decide) (by decide)

/-! ## Account-role resolution -/
theorem accountAt_eq (A : List PublicKey) (idx : List Nat) (k : Nat) :
    accountAt A idx k = (idx[k]?).bind (fun j => A[j]?) := by
  unfold accountAt
  cases idx[k]? <;> rfl

theorem accountAt_valid (A : List PublicKey) (idx : List Nat)
    (hv : ∀ j ∈ idx, j < A.length) (k : Nat) (hk : k < idx.length) :
    ∃ a, accountAt A idx k = some a := by
  have hj : idx[k] < A.length := hv _ (List.getElem_mem hk)
  refine ⟨A[idx[k]], ?_⟩
  unfold accountAt
  rw [List.getElem?_eq_getElem hk]
  exact List.getElem?_eq_getElem hj

theorem appendOpenOrders_valid (A : List PublicKey) (idx : List Nat)
    (hv : ∀ j ∈ idx, j < A.length) (k : Nat) :
    ∀ (itr : Nat) (out : List AccountMeta), itr + k ≤ idx.length →
      ∃ oo, appendOpenOrders A idx itr k out = (oo, none) := by
  induction k with
  | zero => intro itr out _; exact ⟨out, rfl⟩
  | succ n ih =>
    intro itr out h
    obtain ⟨a, ha⟩ := accountAt_valid A idx hv itr (by omega)
    obtain ⟨oo, hoo⟩ := ih (itr + 1) (out ++ [⟨a, false, true⟩]) (by omega)
    exact ⟨oo, by simp only [appendOpenOrders, ha, hoo]⟩

theorem initializeMarket_SetAccounts_ok (i : InstructionInitializeMarket) (A : List PublicKey) (idx : List Nat)
    (hv : ∀ j ∈ idx, j < A.length) (hmin : 9 ≤ idx.length) :
    (i.SetAccounts A idx).2 = none ∧ (i.SetAccounts A idx).1.Accounts.isSome = true := by
  obtain ⟨a0, h0⟩ := accountAt_valid A idx hv 0 (by omega)
  obtain ⟨a5, h5⟩ := accountAt_valid A idx hv 5 (by omega)
  obtain ⟨a6, h6⟩ := accountAt_valid A idx hv 6 (by omega)
  obtain ⟨a7, h7⟩ := accountAt_valid A idx hv 7 (by omega)
  obtain ⟨a8, h8⟩ := accountAt_valid A idx hv 8 (by omega)
  simp only [InstructionInitializeMarket.SetAccounts, if_neg (show ¬ idx.length < 9 by omega),
    h0, h5, h6, h7, h8, Option.bind_eq_bind, Option.some_bind, Option.pure_def]
  constructor <;> first | rfl | trivial

theorem initializeMarket_SetAccounts_short (i : InstructionInitializeMarket) (A : List PublicKey) (idx : List Nat)
    (hmin : idx.length < 9) : i.SetAccounts A idx = (i, some .insufficientAccounts) := by
  simp only [InstructionInitializeMarket.SetAccounts, if_pos hmin]

theorem newOrder_SetAccounts_ok (i : InstructionNewOrder) (A : List PublicKey) (idx : List Nat)
    (hv : ∀ j ∈ idx, j < A.length) (hmin : 9 ≤ idx.length) :
    (i.SetAccounts A idx).2 = none ∧ (i.SetAccounts A idx).1.Accounts.isSome = true := by
  obtain ⟨a0, h0⟩ := accountAt_valid A idx hv 0 (by omega)
  obtain ⟨a1, h1⟩ := accountAt_valid A idx hv 1 (by omega)
  obtain ⟨a2, h2⟩ := accountAt_valid A idx hv 2 (by omega)
  obtain ⟨a3, h3⟩ := accountAt_valid A idx hv 3 (by omega)
  obtain ⟨a4, h4⟩ := accountAt_valid A idx hv 4 (by omega)
  obtain ⟨a5, h5⟩ := accountAt_valid A idx hv 5 (by omega)
  obtain ⟨a6, h6⟩ := accountAt_valid A idx hv 6 (by omega)
  obtain ⟨a7, h7⟩ := accountAt_valid A idx hv 7 (by omega)
  obtain ⟨a8, h8⟩ := accountAt_valid A idx hv 8 (by omega)
  by_cases h10 : idx.length ≥ 10
  · obtain ⟨a9, h9⟩ := accountAt_valid A idx hv 9 (by omega)
    simp only [InstructionNewOrder.SetAccounts, if_neg (show ¬ idx.length < 9 by omega),
      h0, h1, h2, h3, h4, h5, h6, h7, h8, h9, if_pos h10, Option.bind_eq_bind,
      Option.some_bind, Option.pure_def]
    constructor <;> first | rfl | trivial
  · simp only [InstructionNewOrder.SetAccounts, if_neg (show ¬ idx.length < 9 by omega),
      h0, h1, h2, h3, h4, h5, h6, h7, h8, if_neg h10, Option.bind_eq_bind,
      Option.some_bind, Option.pure_def]
    constructor <;> first | rfl | trivial

theorem newOrder_SetAccounts_short (i : InstructionNewOrder) (A : List PublicKey) (idx : List Nat)
    (hmin : idx.length < 9) : i.SetAccounts A idx = (i, some .insufficientAccounts) := by
  simp only [InstructionNewOrder.SetAccounts, if_pos hmin]

theorem matchOrder_SetAccounts_ok (i : InstructionMatchOrder) (A : List PublicKey) (idx : List Nat)
    (hv : ∀ j ∈ idx, j < A.length) (hmin : 7 ≤ idx.length) :
    (i.SetAccounts A idx).2 = none ∧ (i.SetAccounts A idx).1.Accounts.isSome = true := by
  obtain ⟨a0, h0⟩ := accountAt_valid A idx hv 0 (by omega)
  obtain ⟨a1, h1⟩ := accountAt_valid A idx hv 1 (by omega)
  obtain ⟨a2, h2⟩ := accountAt_valid A idx hv 2 (by omega)
  obtain ⟨a3, h3⟩ := accountAt_valid A idx hv 3 (by omega)
  obtain ⟨a4, h4⟩ := accountAt_valid A idx hv 4 (by omega)
  obtain ⟨a5, h5⟩ := accountAt_valid A idx hv 5 (by omega)
  obtain ⟨a6, h6⟩ := accountAt_valid A idx hv 6 (by omega)
  simp only [InstructionMatchOrder.SetAccounts, if_neg (show ¬ idx.length < 7 by omega),
    h0, h1, h2, h3, h4, h5, h6, Option.bind_eq_bind, Option.some_bind, Option.pure_def]
  constructor <;> first | rfl | trivial

theorem matchOrder_SetAccounts_short (i : InstructionMatchOrder) (A : List PublicKey) (idx : List Nat)
    (hmin : idx.length < 7) : i.SetAccounts A idx = (i, some .insufficientAccounts) := by
  simp only [InstructionMatchOrder.SetAccounts, if_pos hmin]

theorem cancelOrder_SetAccounts_ok (i : InstructionCancelOrder) (A : List PublicKey) (idx : List Nat)
    (hv : ∀ j ∈ idx, j < A.length) (hmin : 4 ≤ idx.length) :
    (i.SetAccounts A idx).2 = none ∧ (i.SetAccounts A idx).1.Accounts.isSome = true := by
  obtain ⟨a0, h0⟩ := accountAt_valid A idx hv 0 (by omega)
  obtain ⟨a1, h1⟩ := accountAt_valid A idx hv 1 (by omega)
  obtain ⟨a2, h2⟩ := accountAt_valid A idx hv 2 (by omega)
  obtain ⟨a3, h3⟩ := accountAt_valid A idx hv 3 (by omega)
  simp only [InstructionCancelOrder.SetAccounts, if_neg (show ¬ idx.length < 4 by omega),
    h0, h1, h2, h3, Option.bind_eq_bind, Option.some_bind, Option.pure_def]
  constructor <;> first | rfl | trivial

theorem cancelOrder_SetAccounts_short (i : InstructionCancelOrder) (A : List PublicKey) (idx : List Nat)
    (hmin : idx.length < 4) : i.SetAccounts A idx = (i, some .insufficientAccounts) := by
  simp only [InstructionCancelOrder.SetAccounts, if_pos hmin]

theorem settleFunds_SetAccounts_ok (i : InstructionSettleFunds) (A : List PublicKey) (idx : List Nat)
    (hv : ∀ j ∈ idx, j < A.length) (hmin : 9 ≤ idx.length) :
    (i.SetAccounts A idx).2 = none ∧ (i.SetAccounts A idx).1.Accounts.isSome = true := by
  obtain ⟨a0, h0⟩ := accountAt_valid A idx hv 0 (by omega)
  obtain ⟨a1, h1⟩ := accountAt_valid A idx hv 1 (by omega)
  obtain ⟨a2, h2⟩ := accountAt_valid A idx hv 2 (by omega)
  obtain ⟨a3, h3⟩ := accountAt_valid A idx hv 3 (by omega)
  obtain ⟨a4, h4⟩ := accountAt_valid A idx hv 4 (by omega)
  obtain ⟨a5, h5⟩ := accountAt_valid A idx hv 5 (by omega)
  obtain ⟨a6, h6⟩ := accountAt_valid A idx hv 6 (by omega)
  obtain ⟨a7, h7⟩ := accountAt_valid A idx hv 7 (by omega)
  obtain ⟨a8, h8⟩ := accountAt_valid A idx hv 8 (by omega)
  by_cases h10 : idx.length ≥ 10
  · obtain ⟨a9, h9⟩ := accountAt_valid A idx hv 9 (by omega)
    simp only [InstructionSettleFunds.SetAccounts, if_neg (show ¬ idx.length < 9 by omega),
      h0, h1, h2, h3, h4, h5, h6, h7, h8, h9, if_pos h10, Option.bind_eq_bind,
      Option.some_bind, Option.pure_def]
    constructor <;> first | rfl | trivial
  · simp only [InstructionSettleFunds.SetAccounts, if_neg (show ¬ idx.length < 9 by omega),
      h0, h1, h2, h3, h4, h5, h6, h7, h8, if_neg h10, Option.bind_eq_bind,
      Option.some_bind, Option.pure_def]
    constructor <;> first | rfl | trivial

theorem settleFunds_SetAccounts_short (i : InstructionSettleFunds) (A : List PublicKey) (idx : List Nat)
    (hmin : idx.length < 9) : i.SetAccounts A idx = (i, some .insufficientAccounts) := by
  simp only [InstructionSettleFunds.SetAccounts, if_pos hmin]

theorem cancelOrderByClientId_SetAccounts_ok (i : InstructionCancelOrderByClientId) (A : List PublicKey) (idx : List Nat)
    (hv : ∀ j ∈ idx, j < A.length) (hmin : 4 ≤ idx.length) :
    (i.SetAccounts A idx).2 = none ∧ (i.SetAccounts A idx).1.Accounts.isSome = true := by
  obtain ⟨a0, h0⟩ := accountAt_valid A idx hv 0 (by omega)
  obtain ⟨a1, h1⟩ := accountAt_valid A idx hv 1 (by omega)
  obtain ⟨a2, h2⟩ := accountAt_valid A idx hv 2 (by omega)
  obtain ⟨a3, h3⟩ := accountAt_valid A idx hv 3 (by omega)
  simp only [InstructionCancelOrderByClientId.SetAccounts, if_neg (show ¬ idx.length < 4 by omega),
    h0, h1, h2, h3, Option.bind_eq_bind, Option.some_bind, Option.pure_def]
  constructor <;> first | rfl | trivial

theorem cancelOrderByClientId_SetAccounts_short (i : InstructionCancelOrderByClientId) (A : List PublicKey) (idx : List Nat)
    (hmin : idx.length < 4) : i.SetAccounts A idx = (i, some .insufficientAccounts) := by
  simp only [InstructionCancelOrderByClientId.SetAccounts, if_pos hmin]

theorem consumeEvents_SetAccounts_ok (i : InstructionConsumeEvents) (A : List PublicKey)
    (idx : List Nat) (hv : ∀ j ∈ idx, j < A.length) (hmin : 4 ≤ idx.length) :
    (i.SetAccounts A idx).2 = none ∧ (i.SetAccounts A idx).1.Accounts.isSome = true := by
  obtain ⟨m, hm⟩ := accountAt_valid A idx hv (idx.length - 4) (by omega)
  obtain ⟨q, hq⟩ := accountAt_valid A idx hv (idx.length - 3) (by omega)
  obtain ⟨c, hc⟩ := accountAt_valid A idx hv (idx.length - 2) (by omega)
  obtain ⟨p, hp⟩ := accountAt_valid A idx hv (idx.length - 1) (by omega)
  obtain ⟨oo, hoo⟩ := appendOpenOrders_valid A idx hv (idx.length - 4) 0 [] (by omega)
  simp only [InstructionConsumeEvents.SetAccounts, if_neg (show ¬ idx.length < 4 by omega),
    hm, hq, hc, hp, hoo, Option.bind_eq_bind, Option.some_bind, Option.pure_def]
  constructor <;> first | rfl | trivial

theorem consumeEvents_SetAccounts_short (i : InstructionConsumeEvents) (A : List PublicKey)
    (idx : List Nat) (hmin : idx.length < 4) :
    i.SetAccounts A idx = (i, some .insufficientAccounts) := by
  simp only [InstructionConsumeEvents.SetAccounts, if_pos hmin]

theorem insufficient_iff {α : Type} (r : α × Option AccountsError) (i : α) (n m : Nat)
    (hshort : n < m → r = (i, some .insufficientAccounts))
    (hok : m ≤ n → r.2 = none) :
    r.2 = some .insufficientAccounts ↔ n < m := by
  constructor
  · intro h
    by_contra hn
    rw [hok (by omega)] at h
    exact absurd h (by simp)
  · intro h
    rw [hshort h]

/-- C9: with every index a valid position of the key table, `SetAccounts`
of each variant returns the insufficient-accounts error exactly when the index
list is shorter than the minimum of the variant (9, 9, 7, 4, 4, 9, 4), and at
or above the minimum it returns no error and attaches a role structure. -/
theorem setAccounts_minimum_counts (A : List PublicKey) (idx : List Nat)
    (hv : ∀ j ∈ idx, j < A.length)
    (im : InstructionInitializeMarket) (no : InstructionNewOrder) (mo : InstructionMatchOrder)
    (ce : InstructionConsumeEvents) (co : InstructionCancelOrder) (sf : InstructionSettleFunds)
    (cc : InstructionCancelOrderByClientId) :
    (((im.SetAccounts A idx).2 = some .insufficientAccounts ↔ idx.length < 9) ∧
      (9 ≤ idx.length →
        (im.SetAccounts A idx).2 = none ∧ (im.SetAccounts A idx).1.Accounts.isSome = true)) ∧
    (((no.SetAccounts A idx).2 = some .insufficientAccounts ↔ idx.length < 9) ∧
      (9 ≤ idx.length →
        (no.SetAccounts A idx).2 = none ∧ (no.SetAccounts A idx).1.Accounts.isSome = true)) ∧
    (((mo.SetAccounts A idx).2 = some .insufficientAccounts ↔ idx.length < 7) ∧
      (7 ≤ idx.length →
        (mo.SetAccounts A idx).2 = none ∧ (mo.SetAccounts A idx).1.Accounts.isSome = true)) ∧
    (((ce.SetAccounts A idx).2 = some .insufficientAccounts ↔ idx.length < 4) ∧
      (4 ≤ idx.length →
        (ce.SetAccounts A idx).2 = none ∧ (ce.SetAccounts A idx).1.Accounts.isSome = true)) ∧
    (((co.SetAccounts A idx).2 = some .insufficientAccounts ↔ idx.length < 4) ∧
      (4 ≤ idx.length →
        (co.SetAccounts A idx).2 = none ∧ (co.SetAccounts A idx).1.Accounts.isSome = true)) ∧
    (((sf.SetAccounts A idx).2 = some .insufficientAccounts ↔ idx.length < 9) ∧
      (9 ≤ idx.length →
        (sf.SetAccounts A idx).2 = none ∧ (sf.SetAccounts A idx).1.Accounts.isSome = true)) ∧
    (((cc.SetAccounts A idx).2 = some .insufficientAccounts ↔ idx.length < 4) ∧
      (4 ≤ idx.length →
        (cc.SetAccounts A idx).2 = none ∧ (cc.SetAccounts A idx).1.Accounts.isSome = true)) :=
  ⟨⟨insufficient_iff _ im _ _ (initializeMarket_SetAccounts_short im A idx)
      (fun h => (initializeMarket_SetAccounts_ok im A idx hv h).1),
    initializeMarket_SetAccounts_ok im A idx hv⟩,
   ⟨insufficient_iff _ no _ _ (newOrder_SetAccounts_short no A idx)
      (fun h => (newOrder_SetAccounts_ok no A idx hv h).1),
    newOrder_SetAccounts_ok no A idx hv⟩,
   ⟨insufficient_iff _ mo _ _ (matchOrder_SetAccounts_short mo A idx)
      (fun h => (matchOrder_SetAccounts_ok mo A idx hv h).1),
    matchOrder_SetAccounts_ok mo A idx hv⟩,
   ⟨insufficient_iff _ ce _ _ (consumeEvents_SetAccounts_short ce A idx)
      (fun h => (consumeEvents_SetAccounts_ok ce A idx hv h).1),
    consumeEvents_SetAccounts_ok ce A idx hv⟩,
   ⟨insufficient_iff _ co _ _ (cancelOrder_SetAccounts_short co A idx)
      (fun h => (cancelOrder_SetAccounts_ok co A idx hv h).1),
    cancelOrder_SetAccounts_ok co A idx hv⟩,
   ⟨insufficient_iff _ sf _ _ (settleFunds_SetAccounts_short sf A idx)
      (fun h => (settleFunds_SetAccounts_ok sf A idx hv h).1),
    settleFunds_SetAccounts_ok sf A idx hv⟩,
   ⟨insufficient_iff _ cc _ _ (cancelOrderByClientId_SetAccounts_short cc A idx)
      (fun h => (cancelOrderByClientId_SetAccounts_ok cc A idx hv h).1),
    cancelOrderByClientId_SetAccounts_ok cc A idx hv⟩⟩
theorem setAccounts_minimum_counts_witness :
    (∀ j ∈ [0, 1, 2, 3, 4, 5, 6], j < ([[0], [1], [2], [3], [4], [5], [6], [7]] :
      List PublicKey).length) ∧
    (InstructionNewOrder.SetAccounts ⟨⟨0⟩, 1, 2, ⟨0⟩, 3, none⟩
      [[0], [1], [2], [3], [4], [5], [6], [7]] [0, 1, 2, 3, 4, 5, 6]).2 =
        some .insufficientAccounts ∧
    (InstructionMatchOrder.SetAccounts ⟨5, none⟩
      [[0], [1], [2], [3], [4], [5], [6], [7]] [0, 1, 2, 3, 4, 5, 6]).2 = none :=
  ⟨by decide,
   ((setAccounts_minimum_counts [[0], [1], [2], [3], [4], [5], [6], [7]] [0, 1, 2, 3, 4, 5, 6]
      (by decide) ⟨0, 0, 0, 0, 0, none⟩ ⟨⟨0⟩, 1, 2, ⟨0⟩, 3, none⟩ ⟨5, none⟩ ⟨0, none⟩
      ⟨0, ⟨0, 0⟩, [], 0, none⟩ ⟨none⟩ ⟨0, none⟩).2.1.1).2 (by decide),
   ((setAccounts_minimum_counts [[0], [1], [2], [3], [4], [5], [6], [7]] [0, 1, 2, 3, 4, 5, 6]
      (by decide) ⟨0, 0, 0, 0, 0, none⟩ ⟨⟨0⟩, 1, 2, ⟨0⟩, 3, none⟩ ⟨5, none⟩ ⟨0, none⟩
      ⟨0, ⟨0, 0⟩, [], 0, none⟩ ⟨none⟩ ⟨0, none⟩).2.2.1.2 (by decide)).1⟩

/-- C10: for an index list of at least nine valid entries,
`InstructionNewOrder.SetAccounts` succeeds and maps positions 0..8 to market,
openOrders, requestQueue, payer, owner, coinVault, pcVault, splTokenProgram
and rent; owner is signer and not writable, splTokenProgram and rent are
neither, the other six are writable and not signer. -/
theorem newOrder_positional_roles (i : InstructionNewOrder) (A : List PublicKey)
    (idx : List Nat) (hv : ∀ j ∈ idx, j < A.length) (hlen : 9 ≤ idx.length) :
    ∃ acc : NewOrderAccounts,
      (i.SetAccounts A idx).2 = none ∧ (i.SetAccounts A idx).1.Accounts = some acc ∧
      ((idx[0]?).bind (fun j => A[j]?)).map (fun k => AccountMeta.mk k false true) =
        some acc.Market ∧
      ((idx[1]?).bind (fun j => A[j]?)).map (fun k => AccountMeta.mk k false true) =
        some acc.OpenOrders ∧
      ((idx[2]?).bind (fun j => A[j]?)).map (fun k => AccountMeta.mk k false true) =
        some acc.RequestQueue ∧
      ((idx[3]?).bind (fun j => A[j]?)).map (fun k => AccountMeta.mk k false true) =
        some acc.Payer ∧
      ((idx[4]?).bind (fun j => A[j]?)).map (fun k => AccountMeta.mk k true false) =
        some acc.Owner ∧
      ((idx[5]?).bind (fun j => A[j]?)).map (fun k => AccountMeta.mk k false true) =
        some acc.CoinVault ∧
      ((idx[6]?).bind (fun j => A[j]?)).map (fun k => AccountMeta.mk k false true) =
        some acc.PCVault ∧
      ((idx[7]?).bind (fun j => A[j]?)).map (fun k => AccountMeta.mk k false false) =
        some acc.SPLTokenProgram ∧
      ((idx[8]?).bind (fun j => A[j]?)).map (fun k => AccountMeta.mk k false false) =
        some acc.Rent := by
  obtain ⟨a0, h0⟩ := accountAt_valid A idx hv 0 (by omega)
  obtain ⟨a1, h1⟩ := accountAt_valid A idx hv 1 (by omega)
  obtain ⟨a2, h2⟩ := accountAt_valid A idx hv 2 (by omega)
  obtain ⟨a3, h3⟩ := accountAt_valid A idx hv 3 (by omega)
  obtain ⟨a4, h4⟩ := accountAt_valid A idx hv 4 (by omega)
  obtain ⟨a5, h5⟩ := accountAt_valid A idx hv 5 (by omega)
  obtain ⟨a6, h6⟩ := accountAt_valid A idx hv 6 (by omega)
  obtain ⟨a7, h7⟩ := accountAt_valid A idx hv 7 (by omega)
  obtain ⟨a8, h8⟩ := accountAt_valid A idx hv 8 (by omega)
  have e0 := h0
  have e1 := h1
  have e2 := h2
  have e3 := h3
  have e4 := h4
  have e5 := h5
  have e6 := h6
  have e7 := h7
  have e8 := h8
  rw [accountAt_eq] at e0 e1 e2 e3 e4 e5 e6 e7 e8
  rw [e0, e1, e2, e3, e4, e5, e6, e7, e8]
  by_cases h10 : idx.length ≥ 10
  · obtain ⟨a9, h9⟩ := accountAt_valid A idx hv 9 (by omega)
    refine ⟨⟨⟨a0, false, true⟩, ⟨a1, false, true⟩, ⟨a2, false, true⟩, ⟨a3, false, true⟩,
      ⟨a4, true, false⟩, ⟨a5, false, true⟩, ⟨a6, false, true⟩, ⟨a7, false, false⟩,
      ⟨a8, false, false⟩, some ⟨a9, false, true⟩⟩, ?_, ?_, rfl, rfl, rfl, rfl, rfl, rfl, rfl,
      rfl, rfl⟩ <;>
    simp only [InstructionNewOrder.SetAccounts, if_neg (show ¬ idx.length < 9 by omega),
      h0, h1, h2, h3, h4, h5, h6, h7, h8, h9, if_pos h10, Option.bind_eq_bind,
      Option.some_bind, Option.pure_def]
  · refine ⟨⟨⟨a0, false, true⟩, ⟨a1, false, true⟩, ⟨a2, false, true⟩, ⟨a3, false, true⟩,
      ⟨a4, true, false⟩, ⟨a5, false, true⟩, ⟨a6, false, true⟩, ⟨a7, false, false⟩,
      ⟨a8, false, false⟩, none⟩, ?_, ?_, rfl, rfl, rfl, rfl, rfl, rfl, rfl, rfl, rfl⟩ <;>
    simp only [InstructionNewOrder.SetAccounts, if_neg (show ¬ idx.length < 9 by omega),
      h0, h1, h2, h3, h4, h5, h6, h7, h8, if_neg h10, Option.bind_eq_bind,
      Option.some_bind, Option.pure_def]

theorem newOrder_positional_roles_witness :
    (InstructionNewOrder.SetAccounts ⟨⟨1⟩, 1720, 650000, ⟨0⟩, 7, none⟩
      [[10], [11], [12], [13], [14], [15], [16], [17], [18], [19]]
      [9, 8, 7, 6, 5, 4, 3, 2, 1]).1.Accounts =
      some ⟨⟨[19], false, true⟩, ⟨[18], false, true⟩, ⟨[17], false, true⟩, ⟨[16], false, true⟩,
        ⟨[15], true, false⟩, ⟨[14], false, true⟩, ⟨[13], false, true⟩, ⟨[12], false, false⟩,
        ⟨[11], false, false⟩, none⟩ ∧
    ∃ acc : NewOrderAccounts,
      (InstructionNewOrder.SetAccounts ⟨⟨1⟩, 1720, 650000, ⟨0⟩, 7, none⟩
        [[10], [11], [12], [13], [14], [15], [16], [17], [18], [19]]
        [9, 8, 7, 6, 5, 4, 3, 2, 1]).1.Accounts = some acc ∧
      some (AccountMeta.mk [15] true false) = some acc.Owner := by
  refine ⟨rfl, ?_⟩
  obtain ⟨acc, _, hacc, _, _, _, _, ho, _⟩ :=
    newOrder_positional_roles ⟨⟨1⟩, 1720, 650000, ⟨0⟩, 7, none⟩
      [[10], [11], [12], [13], [14], [15], [16], [17], [18], [19]]
      [9, 8, 7, 6, 5, 4, 3, 2, 1] (by decide) (by decide)
  exact ⟨acc, hacc, ho⟩

/-! ## Encoding followed by decoding -/
theorem length_leBytes (n v : Nat) : (leBytes n v).length = n := by
  induction n generalizing v with
  | zero => rfl
  | succ n ih => simp only [leBytes, List.length_cons, ih]

theorem leVal_leBytes (n v : Nat) (h : v < 256 ^ n) : leVal (leBytes n v) = v := by
  induction n generalizing v with
  | zero =>
    simp only [pow_zero, Nat.lt_one_iff] at h
    subst h
    rfl
  | succ n ih =>
    have hdiv : v / 256 < 256 ^ n := by
      apply Nat.div_lt_of_lt_mul
      rw [pow_succ] at h
      omega
    simp only [leBytes, leVal, ih _ hdiv]
    omega

theorem take_leBytes_append (n v : Nat) (rest : List Byte) :
    (leBytes n v ++ rest).take n = leBytes n v := by
  rw [List.take_append_eq_append_take, length_leBytes, Nat.sub_self, List.take_zero,
    List.append_nil, List.take_of_length_le (by rw [length_leBytes])]

theorem drop_leBytes_append (n v : Nat) (rest : List Byte) :
    (leBytes n v ++ rest).drop n = rest := by
  rw [List.drop_append_eq_append_drop, length_leBytes, Nat.sub_self, List.drop_zero,
    List.drop_of_length_le (by rw [length_leBytes]), List.nil_append]

theorem readLE_leBytes (n v : Nat) (rest : List Byte) (h : v < 256 ^ n) :
    readLE n (leBytes n v ++ rest) = .ok (v, rest) := by
  unfold readLE
  rw [if_neg (by rw [List.length_append, length_leBytes]; omega), take_leBytes_append,
    drop_leBytes_append, leVal_leBytes n v h]

theorem ReadUint128_leBytes (lo hi : Nat) (rest : List Byte) (hlo : lo < 256 ^ 8)
    (hhi : hi < 256 ^ 8) :
    ReadUint128 (leBytes 8 lo ++ (leBytes 8 hi ++ rest)) = .ok (⟨lo, hi⟩, rest) := by
  unfold ReadUint128
  rw [if_neg (by simp only [List.length_append, length_leBytes]; omega), take_leBytes_append,
    drop_leBytes_append, take_leBytes_append, leVal_leBytes 8 lo hlo, leVal_leBytes 8 hi hhi,
    show (16 : Nat) = 8 + 8 from rfl, ← List.drop_drop, drop_leBytes_append,
    drop_leBytes_append]

theorem ReadPublicKey_append (k : PublicKey) (rest : List Byte) (hk : k.length = 32) :
    ReadPublicKey (k ++ rest) = .ok (k, rest) := by
  unfold ReadPublicKey
  rw [if_neg (by rw [List.length_append]; omega), ← hk, List.take_left, List.drop_left]

theorem roundtrip_newOrder (v side limitPrice maxQuantity orderType clientID : Nat)
    (hv : v < 2 ^ 8) (hs : side < 2 ^ 32) (hl : limitPrice < 2 ^ 64) (hm : maxQuantity < 2 ^ 64)
    (ho : orderType < 2 ^ 32) (hc : clientID < 2 ^ 64) :
    ∃ bytes,
      Instruction.MarshalBinary
        ⟨⟨1, .newOrder ⟨⟨side⟩, limitPrice, maxQuantity, ⟨orderType⟩, clientID, none⟩⟩, v⟩ [] =
        .ok bytes ∧
      Instruction.UnmarshalBinary bytes =
        .ok (⟨⟨1, .newOrder ⟨⟨side⟩, limitPrice, maxQuantity, ⟨orderType⟩, clientID, none⟩⟩, v⟩,
          []) := by
  refine ⟨leBytes 1 v ++ (leBytes 4 1 ++ (leBytes 4 side ++ (leBytes 8 limitPrice ++
    (leBytes 8 maxQuantity ++ (leBytes 4 orderType ++ (leBytes 8 clientID ++ [])))))), ?_, ?_⟩
  · simp only [Instruction.MarshalBinary, encodeImpl, encodeNewOrder, WriteUint8, WriteUint32,
      WriteUint64, List.nil_append, List.append_assoc, List.append_nil]
  · simp only [Instruction.UnmarshalBinary, UnmarshalBinaryVariant, ReadUint8, ReadUint32,
      ReadUint64, decodeImpl, decodeNewOrder, skippedField,
      readLE_leBytes 1 v _ (by norm_num; omega), readLE_leBytes 4 1 _ (by norm_num),
      readLE_leBytes 4 side _ (by norm_num; omega),
      readLE_leBytes 8 limitPrice _ (by norm_num; omega),
      readLE_leBytes 8 maxQuantity _ (by norm_num; omega),
      readLE_leBytes 4 orderType _ (by norm_num; omega),
      readLE_leBytes 8 clientID _ (by norm_num; omega),
      bind, Except.bind, pure, Except.pure, Except.map, InstructionDefVariant,
      List.getElem?_cons_succ, List.getElem?_cons_zero]

theorem roundtrip_initializeMarket (v baseLotSize quoteLotSize feeRateBps vaultSignerNonce
    quoteDustThreshold : Nat) (hv : v < 2 ^ 8) (hb : baseLotSize < 2 ^ 64)
    (hq : quoteLotSize < 2 ^ 64) (hf : feeRateBps < 2 ^ 16) (hn : vaultSignerNonce < 2 ^ 64)
    (ht : quoteDustThreshold < 2 ^ 64) :
    ∃ bytes,
      Instruction.MarshalBinary
        ⟨⟨0, .initializeMarket ⟨baseLotSize, quoteLotSize, feeRateBps, vaultSignerNonce,
          quoteDustThreshold, none⟩⟩, v⟩ [] = .ok bytes ∧
      Instruction.UnmarshalBinary bytes =
        .ok (⟨⟨0, .initializeMarket ⟨baseLotSize, quoteLotSize, feeRateBps, vaultSignerNonce,
          quoteDustThreshold, none⟩⟩, v⟩, []) := by
  refine ⟨leBytes 1 v ++ (leBytes 4 0 ++ (leBytes 8 baseLotSize ++ (leBytes 8 quoteLotSize ++
    (leBytes 2 feeRateBps ++ (leBytes 8 vaultSignerNonce ++
    (leBytes 8 quoteDustThreshold ++ [])))))), ?_, ?_⟩
  · simp only [Instruction.MarshalBinary, encodeImpl, encodeInitializeMarket, WriteUint8,
      WriteUint16, WriteUint32, WriteUint64, List.nil_append, List.append_assoc,
      List.append_nil]
  · simp only [Instruction.UnmarshalBinary, UnmarshalBinaryVariant, ReadUint8, ReadUint16,
      ReadUint32, ReadUint64, decodeImpl, decodeInitializeMarket, skippedField,
      readLE_leBytes 1 v _ (by norm_num; omega), readLE_leBytes 4 0 _ (by norm_num),
      readLE_leBytes 8 baseLotSize _ (by norm_num; omega),
      readLE_leBytes 8 quoteLotSize _ (by norm_num; omega),
      readLE_leBytes 2 feeRateBps _ (by norm_num; omega),
      readLE_leBytes 8 vaultSignerNonce _ (by norm_num; omega),
      readLE_leBytes 8 quoteDustThreshold _ (by norm_num; omega),
      bind, Except.bind, pure, Except.pure, Except.map, InstructionDefVariant,
      List.getElem?_cons_zero]

theorem roundtrip_matchOrder (v limit : Nat) (hv : v < 2 ^ 8) (hl : limit < 2 ^ 16) :
    ∃ bytes,
      Instruction.MarshalBinary ⟨⟨2, .matchOrder ⟨limit, none⟩⟩, v⟩ [] = .ok bytes ∧
      Instruction.UnmarshalBinary bytes = .ok (⟨⟨2, .matchOrder ⟨limit, none⟩⟩, v⟩, []) := by
  refine ⟨leBytes 1 v ++ (leBytes 4 2 ++ (leBytes 2 limit ++ [])), ?_, ?_⟩
  · simp only [Instruction.MarshalBinary, encodeImpl, encodeMatchOrder, WriteUint8,
      WriteUint16, WriteUint32, List.nil_append, List.append_assoc, List.append_nil]
  · simp only [Instruction.UnmarshalBinary, UnmarshalBinaryVariant, ReadUint8, ReadUint16,
      ReadUint32, decodeImpl, decodeMatchOrder, skippedField,
      readLE_leBytes 1 v _ (by norm_num; omega), readLE_leBytes 4 2 _ (by norm_num),
      readLE_leBytes 2 limit _ (by norm_num; omega),
      bind, Except.bind, pure, Except.pure, Except.map, InstructionDefVariant,
      List.getElem?_cons_succ, List.getElem?_cons_zero]

theorem roundtrip_consumeEvents (v limit : Nat) (hv : v < 2 ^ 8) (hl : limit < 2 ^ 16) :
    ∃ bytes,
      Instruction.MarshalBinary ⟨⟨3, .consumeEvents ⟨limit, none⟩⟩, v⟩ [] = .ok bytes ∧
      Instruction.UnmarshalBinary bytes = .ok (⟨⟨3, .consumeEvents ⟨limit, none⟩⟩, v⟩, []) := by
  refine ⟨leBytes 1 v ++ (leBytes 4 3 ++ (leBytes 2 limit ++ [])), ?_, ?_⟩
  · simp only [Instruction.MarshalBinary, encodeImpl, encodeConsumeEvents, WriteUint8,
      WriteUint16, WriteUint32, List.nil_append, List.append_assoc, List.append_nil]
  · simp only [Instruction.UnmarshalBinary, UnmarshalBinaryVariant, ReadUint8, ReadUint16,
      ReadUint32, decodeImpl, decodeConsumeEvents, skippedField,
      readLE_leBytes 1 v _ (by norm_num; omega), readLE_leBytes 4 3 _ (by norm_num),
      readLE_leBytes 2 limit _ (by norm_num; omega),
      bind, Except.bind, pure, Except.pure, Except.map, InstructionDefVariant,
      List.getElem?_cons_succ, List.getElem?_cons_zero]

theorem roundtrip_cancelOrder (v side lo hi slot : Nat) (openOrders : PublicKey)
    (hv : v < 2 ^ 8) (hs : side < 2 ^ 32) (hlo : lo < 2 ^ 64) (hhi : hi < 2 ^ 64)
    (hk : openOrders.length = 32) (hsl : slot < 2 ^ 8) :
    ∃ bytes,
      Instruction.MarshalBinary
        ⟨⟨4, .cancelOrder ⟨side, ⟨lo, hi⟩, openOrders, slot, none⟩⟩, v⟩ [] = .ok bytes ∧
      Instruction.UnmarshalBinary bytes =
        .ok (⟨⟨4, .cancelOrder ⟨side, ⟨lo, hi⟩, openOrders, slot, none⟩⟩, v⟩, []) := by
  refine ⟨leBytes 1 v ++ (leBytes 4 4 ++ (leBytes 4 side ++ (leBytes 8 lo ++ (leBytes 8 hi ++
    (openOrders ++ (leBytes 1 slot ++ [])))))), ?_, ?_⟩
  · simp only [Instruction.MarshalBinary, encodeImpl, encodeCancelOrder, WriteUint8,
      WriteUint32, WriteUint128, WritePublicKey, List.nil_append, List.append_assoc,
      List.append_nil]
  · simp only [Instruction.UnmarshalBinary, UnmarshalBinaryVariant, ReadUint8,
      ReadUint32, decodeImpl, decodeCancelOrder, skippedField,
      readLE_leBytes 1 v _ (by norm_num; omega), readLE_leBytes 4 4 _ (by norm_num),
      readLE_leBytes 4 side _ (by norm_num; omega),
      ReadUint128_leBytes lo hi _ (by norm_num; omega) (by norm_num; omega),
      ReadPublicKey_append openOrders _ hk,
      readLE_leBytes 1 slot _ (by norm_num; omega),
      bind, Except.bind, pure, Except.pure, Except.map, InstructionDefVariant,
      List.getElem?_cons_succ, List.getElem?_cons_zero]

theorem roundtrip_settleFunds (v : Nat) (hv : v < 2 ^ 8) :
    ∃ bytes,
      Instruction.MarshalBinary ⟨⟨5, .settleFunds ⟨none⟩⟩, v⟩ [] = .ok bytes ∧
      Instruction.UnmarshalBinary bytes = .ok (⟨⟨5, .settleFunds ⟨none⟩⟩, v⟩, []) := by
  refine ⟨leBytes 1 v ++ (leBytes 4 5 ++ []), ?_, ?_⟩
  · simp only [Instruction.MarshalBinary, encodeImpl, encodeSettleFunds, WriteUint8,
      WriteUint32, List.nil_append, List.append_assoc, List.append_nil]
  · simp only [Instruction.UnmarshalBinary, UnmarshalBinaryVariant, ReadUint8,
      ReadUint32, decodeImpl, decodeSettleFunds, skippedField,
      readLE_leBytes 1 v _ (by norm_num; omega), readLE_leBytes 4 5 _ (by norm_num),
      bind, Except.bind, pure, Except.pure, Except.map, InstructionDefVariant,
      List.getElem?_cons_succ, List.getElem?_cons_zero]

/-- C1 at its failing input: a CancelOrderByClientId instruction with no role
structure is not encoded (the walker reaches the untagged nil `Accounts`
pointer), and the 13-byte wire form of version, type ID 6 and `ClientID` is
rejected with the truncated-input error instead of decoding back. -/
theorem roundtrip_cancelOrderByClientId_fails :
    Instruction.MarshalBinary ⟨⟨6, .cancelOrderByClientId ⟨1, none⟩⟩, 0⟩ [] =
      .error .nilPointer ∧
    Instruction.UnmarshalBinary (leBytes 1 0 ++ leBytes 4 6 ++ leBytes 8 1) =
      .error .truncated ∧
    leBytes 1 0 ++ leBytes 4 6 ++ leBytes 8 1 = [0, 6, 0, 0, 0, 1, 0, 0, 0, 0, 0, 0, 0] :=
  ⟨rfl, rfl, rfl⟩

/-! ## Account-role resolution: explicit results -/

theorem newOrder_SetAccounts_eq_nine (i : InstructionNewOrder) (A : List PublicKey) (idx : List Nat)
    (a0 a1 a2 a3 a4 a5 a6 a7 a8 : PublicKey) (hlen : 9 ≤ idx.length) (hlt : idx.length < 10)
    (h0 : accountAt A idx 0 = some a0)
    (h1 : accountAt A idx 1 = some a1)
    (h2 : accountAt A idx 2 = some a2)
    (h3 : accountAt A idx 3 = some a3)
    (h4 : accountAt A idx 4 = some a4)
    (h5 : accountAt A idx 5 = some a5)
    (h6 : accountAt A idx 6 = some a6)
    (h7 : accountAt A idx 7 = some a7)
    (h8 : accountAt A idx 8 = some a8) :
    i.SetAccounts A idx =
      ({ i with Accounts := some ⟨⟨a0, false, true⟩, ⟨a1, false, true⟩, ⟨a2, false, true⟩, ⟨a3, false, true⟩, ⟨a4, true, false⟩, ⟨a5, false, true⟩, ⟨a6, false, true⟩, ⟨a7, false, false⟩, ⟨a8, false, false⟩, none⟩ }, none) := by
  simp only [InstructionNewOrder.SetAccounts, if_neg (show ¬ idx.length < 9 by omega),
    h0, h1, h2, h3, h4, h5, h6, h7, h8, if_neg (show ¬ idx.length ≥ 10 by omega),
    Option.bind_eq_bind, Option.some_bind, Option.pure_def]

theorem newOrder_SetAccounts_eq_ten (i : InstructionNewOrder) (A : List PublicKey) (idx : List Nat)
    (a0 a1 a2 a3 a4 a5 a6 a7 a8 a9 : PublicKey) (hlen : 10 ≤ idx.length)
    (h0 : accountAt A idx 0 = some a0)
    (h1 : accountAt A idx 1 = some a1)
    (h2 : accountAt A idx 2 = some a2)
    (h3 : accountAt A idx 3 = some a3)
    (h4 : accountAt A idx 4 = some a4)
    (h5 : accountAt A idx 5 = some a5)
    (h6 : accountAt A idx 6 = some a6)
    (h7 : accountAt A idx 7 = some a7)
    (h8 : accountAt A idx 8 = some a8)
    (h9 : accountAt A idx 9 = some a9) :
    i.SetAccounts A idx =
      ({ i with Accounts := some ⟨⟨a0, false, true⟩, ⟨a1, false, true⟩, ⟨a2, false, true⟩, ⟨a3, false, true⟩, ⟨a4, true, false⟩, ⟨a5, false, true⟩, ⟨a6, false, true⟩, ⟨a7, false, false⟩, ⟨a8, false, false⟩, some ⟨a9, false, true⟩⟩ }, none) := by
  simp only [InstructionNewOrder.SetAccounts, if_neg (show ¬ idx.length < 9 by omega),
    h0, h1, h2, h3, h4, h5, h6, h7, h8, h9, if_pos (show idx.length ≥ 10 by omega),
    Option.bind_eq_bind, Option.some_bind, Option.pure_def]

theorem settleFunds_SetAccounts_eq_nine (i : InstructionSettleFunds) (A : List PublicKey) (idx : List Nat)
    (a0 a1 a2 a3 a4 a5 a6 a7 a8 : PublicKey) (hlen : 9 ≤ idx.length) (hlt : idx.length < 10)
    (h0 : accountAt A idx 0 = some a0)
    (h1 : accountAt A idx 1 = some a1)
    (h2 : accountAt A idx 2 = some a2)
    (h3 : accountAt A idx 3 = some a3)
    (h4 : accountAt A idx 4 = some a4)
    (h5 : accountAt A idx 5 = some a5)
    (h6 : accountAt A idx 6 = some a6)
    (h7 : accountAt A idx 7 = some a7)
    (h8 : accountAt A idx 8 = some a8) :
    i.SetAccounts A idx =
      ({ i with Accounts := some ⟨⟨a0, false, true⟩, ⟨a1, false, true⟩, ⟨a2, true, false⟩, ⟨a3, false, true⟩, ⟨a4, false, true⟩, ⟨a5, false, true⟩, ⟨a6, false, true⟩, ⟨a7, false, false⟩, ⟨a8, false, false⟩, none⟩ }, none) := by
  simp only [InstructionSettleFunds.SetAccounts, if_neg (show ¬ idx.length < 9 by omega),
    h0, h1, h2, h3, h4, h5, h6, h7, h8, if_neg (show ¬ idx.length ≥ 10 by omega),
    Option.bind_eq_bind, Option.some_bind, Option.pure_def]

theorem settleFunds_SetAccounts_eq_ten (i : InstructionSettleFunds) (A : List PublicKey) (idx : List Nat)
    (a0 a1 a2 a3 a4 a5 a6 a7 a8 a9 : PublicKey) (hlen : 10 ≤ idx.length)
    (h0 : accountAt A idx 0 = some a0)
    (h1 : accountAt A idx 1 = some a1)
    (h2 : accountAt A idx 2 = some a2)
    (h3 : accountAt A idx 3 = some a3)
    (h4 : accountAt A idx 4 = some a4)
    (h5 : accountAt A idx 5 = some a5)
    (h6 : accountAt A idx 6 = some a6)
    (h7 : accountAt A idx 7 = some a7)
    (h8 : accountAt A idx 8 = some a8)
    (h9 : accountAt A idx 9 = some a9) :
    i.SetAccounts A idx =
      ({ i with Accounts := some ⟨⟨a0, false, true⟩, ⟨a1, false, true⟩, ⟨a2, true, false⟩, ⟨a3, false, true⟩, ⟨a4, false, true⟩, ⟨a5, false, true⟩, ⟨a6, false, true⟩, ⟨a7, false, false⟩, ⟨a8, false, false⟩, some ⟨a9, false, true⟩⟩ }, none) := by
  simp only [InstructionSettleFunds.SetAccounts, if_neg (show ¬ idx.length < 9 by omega),
    h0, h1, h2, h3, h4, h5, h6, h7, h8, h9, if_pos (show idx.length ≥ 10 by omega),
    Option.bind_eq_bind, Option.some_bind, Option.pure_def]

theorem initializeMarket_SetAccounts_eq (i : InstructionInitializeMarket) (A : List PublicKey) (idx : List Nat)
    (a0 a5 a6 a7 a8 : PublicKey) (hlen : 9 ≤ idx.length)
    (h0 : accountAt A idx 0 = some a0)
    (h5 : accountAt A idx 5 = some a5)
    (h6 : accountAt A idx 6 = some a6)
    (h7 : accountAt A idx 7 = some a7)
    (h8 : accountAt A idx 8 = some a8) :
    i.SetAccounts A idx =
      ({ i with Accounts := some ⟨⟨a0, false, true⟩, ⟨a5, false, true⟩, ⟨a6, false, true⟩, ⟨a7, false, false⟩, ⟨a8, false, false⟩⟩ }, none) := by
  simp only [InstructionInitializeMarket.SetAccounts, if_neg (show ¬ idx.length < 9 by omega),
    h0, h5, h6, h7, h8, Option.bind_eq_bind, Option.some_bind, Option.pure_def]

theorem matchOrder_SetAccounts_eq (i : InstructionMatchOrder) (A : List PublicKey) (idx : List Nat)
    (a0 a1 a2 a3 a4 a5 a6 : PublicKey) (hlen : 7 ≤ idx.length)
    (h0 : accountAt A idx 0 = some a0)
    (h1 : accountAt A idx 1 = some a1)
    (h2 : accountAt A idx 2 = some a2)
    (h3 : accountAt A idx 3 = some a3)
    (h4 : accountAt A idx 4 = some a4)
    (h5 : accountAt A idx 5 = some a5)
    (h6 : accountAt A idx 6 = some a6) :
    i.SetAccounts A idx =
      ({ i with Accounts := some ⟨⟨a0, false, true⟩, ⟨a1, false, true⟩, ⟨a2, false, true⟩, ⟨a3, false, true⟩, ⟨a4, false, true⟩, ⟨a5, false, true⟩, ⟨a6, false, true⟩⟩ }, none) := by
  simp only [InstructionMatchOrder.SetAccounts, if_neg (show ¬ idx.length < 7 by omega),
    h0, h1, h2, h3, h4, h5, h6, Option.bind_eq_bind, Option.some_bind, Option.pure_def]

theorem cancelOrder_SetAccounts_eq (i : InstructionCancelOrder) (A : List PublicKey) (idx : List Nat)
    (a0 a1 a2 a3 : PublicKey) (hlen : 4 ≤ idx.length)
    (h0 : accountAt A idx 0 = some a0)
    (h1 : accountAt A idx 1 = some a1)
    (h2 : accountAt A idx 2 = some a2)
    (h3 : accountAt A idx 3 = some a3) :
    i.SetAccounts A idx =
      ({ i with Accounts := some ⟨⟨a0, false, false⟩, ⟨a1, false, true⟩, ⟨a2, false, true⟩, ⟨a3, true, false⟩⟩ }, none) := by
  simp only [InstructionCancelOrder.SetAccounts, if_neg (show ¬ idx.length < 4 by omega),
    h0, h1, h2, h3, Option.bind_eq_bind, Option.some_bind, Option.pure_def]

theorem cancelOrderByClientId_SetAccounts_eq (i : InstructionCancelOrderByClientId) (A : List PublicKey) (idx : List Nat)
    (a0 a1 a2 a3 : PublicKey) (hlen : 4 ≤ idx.length)
    (h0 : accountAt A idx 0 = some a0)
    (h1 : accountAt A idx 1 = some a1)
    (h2 : accountAt A idx 2 = some a2)
    (h3 : accountAt A idx 3 = some a3) :
    i.SetAccounts A idx =
      ({ i with Accounts := some ⟨⟨a0, false, false⟩, ⟨a1, false, true⟩, ⟨a2, false, true⟩, ⟨a3, true, false⟩⟩ }, none) := by
  simp only [InstructionCancelOrderByClientId.SetAccounts, if_neg (show ¬ idx.length < 4 by omega),
    h0, h1, h2, h3, Option.bind_eq_bind, Option.some_bind, Option.pure_def]

theorem accountAt_valid_eq (A : List PublicKey) (idx : List Nat)
    (hv : ∀ j ∈ idx, j < A.length) (k : Nat) (hk : k < idx.length) :
    ∃ a, accountAt A idx k = some a ∧ (idx[k]?).bind (fun j => A[j]?) = some a := by
  obtain ⟨a, ha⟩ := accountAt_valid A idx hv k hk
  exact ⟨a, ha, by rw [← accountAt_eq]; exact ha⟩

theorem appendOpenOrders_spec (A : List PublicKey) (idx : List Nat)
    (hv : ∀ j ∈ idx, j < A.length) (k : Nat) :
    ∀ (itr : Nat) (out : List AccountMeta), itr + k ≤ idx.length →
      ∃ oo, appendOpenOrders A idx itr k out = (out ++ oo, none) ∧ oo.length = k ∧
        ∀ t, t < k →
          oo[t]? = (accountAt A idx (itr + t)).map (fun a => AccountMeta.mk a false true) := by
  induction k with
  | zero =>
    intro itr out _
    exact ⟨[], by simp [appendOpenOrders], rfl, fun t ht => absurd ht (by omega)⟩
  | succ n ih =>
    intro itr out h
    obtain ⟨a, ha⟩ := accountAt_valid A idx hv itr (by omega)
    obtain ⟨oo, hoo, hlen, hget⟩ := ih (itr + 1) (out ++ [⟨a, false, true⟩]) (by omega)
    refine ⟨⟨a, false, true⟩ :: oo, ?_, by simp [hlen], ?_⟩
    · simp only [appendOpenOrders, ha, hoo, List.append_assoc, List.singleton_append]
    · intro t ht
      cases t with
      | zero => simp [ha]
      | succ u =>
        rw [List.getElem?_cons_succ, hget u (by omega)]
        congr 2
        omega

theorem consumeEvents_SetAccounts_eq (i : InstructionConsumeEvents) (A : List PublicKey)
    (idx : List Nat) (hv : ∀ j ∈ idx, j < A.length) (hlen : 4 ≤ idx.length)
    (m q c p : PublicKey)
    (hm : accountAt A idx (idx.length - 4) = some m)
    (hq : accountAt A idx (idx.length - 3) = some q)
    (hc : accountAt A idx (idx.length - 2) = some c)
    (hp : accountAt A idx (idx.length - 1) = some p) :
    ∃ oo : List AccountMeta,
      i.SetAccounts A idx =
        ({ i with Accounts := some ⟨oo, ⟨m, false, true⟩, ⟨q, false, true⟩, ⟨c, false, true⟩,
          ⟨p, false, true⟩⟩ }, none) ∧
      oo.length = idx.length - 4 ∧
      ∀ t, t < idx.length - 4 →
        oo[t]? = (accountAt A idx t).map (fun a => AccountMeta.mk a false true) := by
  obtain ⟨oo, hoo, hl, hget⟩ := appendOpenOrders_spec A idx hv (idx.length - 4) 0 [] (by omega)
  refine ⟨oo, ?_, hl, ?_⟩
  · simp only [InstructionConsumeEvents.SetAccounts, if_neg (show ¬ idx.length < 4 by omega),
      hm, hq, hc, hp, hoo, Option.bind_eq_bind, Option.some_bind, Option.pure_def,
      List.nil_append]
  · intro t ht
    have := hget t ht
    rwa [Nat.zero_add] at this

theorem newOrder_SetAccounts_cases (i : InstructionNewOrder) (A : List PublicKey) (idx : List Nat)
    (hv : ∀ j ∈ idx, j < A.length) (hlen : 9 ≤ idx.length) :
    ∃ acc : NewOrderAccounts,
      i.SetAccounts A idx = ({ i with Accounts := some acc }, none) ∧
      (accountAt A idx 0).map (fun a => AccountMeta.mk a false true) = some acc.Market ∧
      (accountAt A idx 1).map (fun a => AccountMeta.mk a false true) = some acc.OpenOrders ∧
      (accountAt A idx 2).map (fun a => AccountMeta.mk a false true) = some acc.RequestQueue ∧
      (accountAt A idx 3).map (fun a => AccountMeta.mk a false true) = some acc.Payer ∧
      (accountAt A idx 4).map (fun a => AccountMeta.mk a true false) = some acc.Owner ∧
      (accountAt A idx 5).map (fun a => AccountMeta.mk a false true) = some acc.CoinVault ∧
      (accountAt A idx 6).map (fun a => AccountMeta.mk a false true) = some acc.PCVault ∧
      (accountAt A idx 7).map (fun a => AccountMeta.mk a false false) = some acc.SPLTokenProgram ∧
      (accountAt A idx 8).map (fun a => AccountMeta.mk a false false) = some acc.Rent ∧
      (idx.length < 10 → acc.SRMDiscountAccount = none) ∧
      (10 ≤ idx.length → ∃ a9, accountAt A idx 9 = some a9 ∧
        acc.SRMDiscountAccount = some ⟨a9, false, true⟩) := by
  obtain ⟨a0, h0⟩ := accountAt_valid A idx hv 0 (by omega)
  obtain ⟨a1, h1⟩ := accountAt_valid A idx hv 1 (by omega)
  obtain ⟨a2, h2⟩ := accountAt_valid A idx hv 2 (by omega)
  obtain ⟨a3, h3⟩ := accountAt_valid A idx hv 3 (by omega)
  obtain ⟨a4, h4⟩ := accountAt_valid A idx hv 4 (by omega)
  obtain ⟨a5, h5⟩ := accountAt_valid A idx hv 5 (by omega)
  obtain ⟨a6, h6⟩ := accountAt_valid A idx hv 6 (by omega)
  obtain ⟨a7, h7⟩ := accountAt_valid A idx hv 7 (by omega)
  obtain ⟨a8, h8⟩ := accountAt_valid A idx hv 8 (by omega)
  simp only [h0, h1, h2, h3, h4, h5, h6, h7, h8, Option.map_some']
  by_cases h10 : 10 ≤ idx.length
  · obtain ⟨a9, h9⟩ := accountAt_valid A idx hv 9 (by omega)
    exact ⟨⟨⟨a0, false, true⟩, ⟨a1, false, true⟩, ⟨a2, false, true⟩, ⟨a3, false, true⟩, ⟨a4, true, false⟩, ⟨a5, false, true⟩, ⟨a6, false, true⟩, ⟨a7, false, false⟩, ⟨a8, false, false⟩, some ⟨a9, false, true⟩⟩,
      newOrder_SetAccounts_eq_ten i A idx a0 a1 a2 a3 a4 a5 a6 a7 a8 a9 h10 h0 h1 h2 h3 h4 h5 h6 h7 h8 h9,
      rfl, rfl, rfl, rfl, rfl, rfl, rfl, rfl, rfl, fun hlt => absurd hlt (by omega), fun _ => ⟨a9, h9, rfl⟩⟩
  · exact ⟨⟨⟨a0, false, true⟩, ⟨a1, false, true⟩, ⟨a2, false, true⟩, ⟨a3, false, true⟩, ⟨a4, true, false⟩, ⟨a5, false, true⟩, ⟨a6, false, true⟩, ⟨a7, false, false⟩, ⟨a8, false, false⟩, none⟩,
      newOrder_SetAccounts_eq_nine i A idx a0 a1 a2 a3 a4 a5 a6 a7 a8 hlen (by omega) h0 h1 h2 h3 h4 h5 h6 h7 h8,
      rfl, rfl, rfl, rfl, rfl, rfl, rfl, rfl, rfl, fun _ => rfl, fun hge => absurd hge h10⟩

theorem settleFunds_SetAccounts_cases (i : InstructionSettleFunds) (A : List PublicKey) (idx : List Nat)
    (hv : ∀ j ∈ idx, j < A.length) (hlen : 9 ≤ idx.length) :
    ∃ acc : SettleFundsAccounts,
      i.SetAccounts A idx = ({ i with Accounts := some acc }, none) ∧
      (accountAt A idx 0).map (fun a => AccountMeta.mk a false true) = some acc.Market ∧
      (accountAt A idx 1).map (fun a => AccountMeta.mk a false true) = some acc.OpenOrders ∧
      (accountAt A idx 2).map (fun a => AccountMeta.mk a true false) = some acc.Owner ∧
      (accountAt A idx 3).map (fun a => AccountMeta.mk a false true) = some acc.CoinVault ∧
      (accountAt A idx 4).map (fun a => AccountMeta.mk a false true) = some acc.PCVault ∧
      (accountAt A idx 5).map (fun a => AccountMeta.mk a false true) = some acc.CoinWallet ∧
      (accountAt A idx 6).map (fun a => AccountMeta.mk a false true) = some acc.PCWallet ∧
      (accountAt A idx 7).map (fun a => AccountMeta.mk a false false) = some acc.Signer ∧
      (accountAt A idx 8).map (fun a => AccountMeta.mk a false false) = some acc.SPLTokenProgram ∧
      (idx.length < 10 → acc.ReferrerPCWallet = none) ∧
      (10 ≤ idx.length → ∃ a9, accountAt A idx 9 = some a9 ∧
        acc.ReferrerPCWallet = some ⟨a9, false, true⟩) := by
  obtain ⟨a0, h0⟩ := accountAt_valid A idx hv 0 (by omega)
  obtain ⟨a1, h1⟩ := accountAt_valid A idx hv 1 (by omega)
  obtain ⟨a2, h2⟩ := accountAt_valid A idx hv 2 (by omega)
  obtain ⟨a3, h3⟩ := accountAt_valid A idx hv 3 (by omega)
  obtain ⟨a4, h4⟩ := accountAt_valid A idx hv 4 (by omega)
  obtain ⟨a5, h5⟩ := accountAt_valid A idx hv 5 (by omega)
  obtain ⟨a6, h6⟩ := accountAt_valid A idx hv 6 (by omega)
  obtain ⟨a7, h7⟩ := accountAt_valid A idx hv 7 (by omega)
  obtain ⟨a8, h8⟩ := accountAt_valid A idx hv 8 (by omega)
  simp only [h0, h1, h2, h3, h4, h5, h6, h7, h8, Option.map_some']
  by_cases h10 : 10 ≤ idx.length
  · obtain ⟨a9, h9⟩ := accountAt_valid A idx hv 9 (by omega)
    exact ⟨⟨⟨a0, false, true⟩, ⟨a1, false, true⟩, ⟨a2, true, false⟩, ⟨a3, false, true⟩, ⟨a4, false, true⟩, ⟨a5, false, true⟩, ⟨a6, false, true⟩, ⟨a7, false, false⟩, ⟨a8, false, false⟩, some ⟨a9, false, true⟩⟩,
      settleFunds_SetAccounts_eq_ten i A idx a0 a1 a2 a3 a4 a5 a6 a7 a8 a9 h10 h0 h1 h2 h3 h4 h5 h6 h7 h8 h9,
      rfl, rfl, rfl, rfl, rfl, rfl, rfl, rfl, rfl, fun hlt => absurd hlt (by omega), fun _ => ⟨a9, h9, rfl⟩⟩
  · exact ⟨⟨⟨a0, false, true⟩, ⟨a1, false, true⟩, ⟨a2, true, false⟩, ⟨a3, false, true⟩, ⟨a4, false, true⟩, ⟨a5, false, true⟩, ⟨a6, false, true⟩, ⟨a7, false, false⟩, ⟨a8, false, false⟩, none⟩,
      settleFunds_SetAccounts_eq_nine i A idx a0 a1 a2 a3 a4 a5 a6 a7 a8 hlen (by omega) h0 h1 h2 h3 h4 h5 h6 h7 h8,
      rfl, rfl, rfl, rfl, rfl, rfl, rfl, rfl, rfl, fun _ => rfl, fun hge => absurd hge h10⟩

/-! ## Optional trailing roles -/

/-- C11: with valid indices, `InstructionNewOrder.SetAccounts` returns the
insufficient-accounts error for 8 indices, succeeds without the SRM discount
role for exactly 9, and for exactly 10 succeeds with the SRM discount role
`A[idx[9]]`, writable and not signer. -/
theorem newOrder_optional_boundary (i : InstructionNewOrder) (A : List PublicKey)
    (idx : List Nat) (hv : ∀ j ∈ idx, j < A.length) :
    (idx.length = 8 → (i.SetAccounts A idx).2 = some .insufficientAccounts) ∧
    (idx.length = 9 → (i.SetAccounts A idx).2 = none ∧
      ∃ acc, (i.SetAccounts A idx).1.Accounts = some acc ∧ acc.SRMDiscountAccount = none) ∧
    (idx.length = 10 → (i.SetAccounts A idx).2 = none ∧
      ∃ acc key, (i.SetAccounts A idx).1.Accounts = some acc ∧
        (idx[9]?).bind (fun j => A[j]?) = some key ∧
        acc.SRMDiscountAccount = some ⟨key, false, true⟩) := by
  refine ⟨fun h8 => ?_, fun h9 => ?_, fun h10 => ?_⟩
  · rw [newOrder_SetAccounts_short i A idx (by omega)]
  · obtain ⟨acc, hres, _, _, _, _, _, _, _, _, _, hnone, _⟩ :=
      newOrder_SetAccounts_cases i A idx hv (by omega)
    rw [hres]
    exact ⟨rfl, acc, rfl, hnone (by omega)⟩
  · obtain ⟨acc, hres, _, _, _, _, _, _, _, _, _, _, hsome⟩ :=
      newOrder_SetAccounts_cases i A idx hv (by omega)
    obtain ⟨a9, h9, hopt⟩ := hsome (by omega)
    rw [hres]
    exact ⟨rfl, acc, a9, rfl, by rw [← accountAt_eq]; exact h9, hopt⟩

theorem newOrder_optional_boundary_witness :
    (InstructionNewOrder.SetAccounts ⟨⟨0⟩, 5, 6, ⟨1⟩, 7, none⟩
      [[0], [1], [2], [3], [4], [5], [6], [7], [8], [9], [10]]
      [10, 9, 8, 7, 6, 5, 4, 3, 2, 1]).2 = none ∧
    ∃ acc key,
      (InstructionNewOrder.SetAccounts ⟨⟨0⟩, 5, 6, ⟨1⟩, 7, none⟩
        [[0], [1], [2], [3], [4], [5], [6], [7], [8], [9], [10]]
        [10, 9, 8, 7, 6, 5, 4, 3, 2, 1]).1.Accounts = some acc ∧
      ([10, 9, 8, 7, 6, 5, 4, 3, 2, 1][9]?).bind
        (fun j => ([[0], [1], [2], [3], [4], [5], [6], [7], [8], [9], [10]] :
          List PublicKey)[j]?) = some key ∧
      acc.SRMDiscountAccount = some ⟨key, false, true⟩ :=
  (newOrder_optional_boundary ⟨⟨0⟩, 5, 6, ⟨1⟩, 7, none⟩
    [[0], [1], [2], [3], [4], [5], [6], [7], [8], [9], [10]]
    [10, 9, 8, 7, 6, 5, 4, 3, 2, 1] (by decide)).2.2 rfl

/-- C12, as the claim states it, fails: with eleven valid indices the
optional role of NewOrder and of SettleFunds is present, although the length
is not 10. -/
theorem optional_role_eleven_indices :
    ¬ (((InstructionNewOrder.SetAccounts ⟨⟨0⟩, 5, 6, ⟨1⟩, 7, none⟩
        [[0], [1], [2], [3], [4], [5], [6], [7], [8], [9], [10]]
        [0, 1, 2, 3, 4, 5, 6, 7, 8, 9, 10]).1.Accounts.bind
          (fun a => a.SRMDiscountAccount)).isSome = true ↔
      [0, 1, 2, 3, 4, 5, 6, 7, 8, 9, 10].length = 10) ∧
    ¬ (((InstructionSettleFunds.SetAccounts ⟨none⟩
        [[0], [1], [2], [3], [4], [5], [6], [7], [8], [9], [10]]
        [0, 1, 2, 3, 4, 5, 6, 7, 8, 9, 10]).1.Accounts.bind
          (fun a => a.ReferrerPCWallet)).isSome = true ↔
      [0, 1, 2, 3, 4, 5, 6, 7, 8, 9, 10].length = 10) := by
  constructor
  · intro h
    exact absurd (h.1 rfl) (by decide)
  · intro h
    exact absurd (h.1 rfl) (by decide)

/-- C12, amended: for NewOrder and SettleFunds with at least nine valid
indices, the optional role is present exactly when there are ten or more
indices; it is then `A[idx[9]]`, writable and not signer. -/
theorem optional_role_iff_ten_or_more (no : InstructionNewOrder) (sf : InstructionSettleFunds)
    (A : List PublicKey) (idx : List Nat) (hv : ∀ j ∈ idx, j < A.length)
    (hlen : 9 ≤ idx.length) :
    (∃ acc, (no.SetAccounts A idx).1.Accounts = some acc ∧
      (acc.SRMDiscountAccount.isSome = true ↔ 10 ≤ idx.length) ∧
      (10 ≤ idx.length → ∃ key, (idx[9]?).bind (fun j => A[j]?) = some key ∧
        acc.SRMDiscountAccount = some ⟨key, false, true⟩)) ∧
    (∃ acc, (sf.SetAccounts A idx).1.Accounts = some acc ∧
      (acc.ReferrerPCWallet.isSome = true ↔ 10 ≤ idx.length) ∧
      (10 ≤ idx.length → ∃ key, (idx[9]?).bind (fun j => A[j]?) = some key ∧
        acc.ReferrerPCWallet = some ⟨key, false, true⟩)) := by
  constructor
  · obtain ⟨acc, hres, _, _, _, _, _, _, _, _, _, hnone, hsome⟩ :=
      newOrder_SetAccounts_cases no A idx hv hlen
    refine ⟨acc, by rw [hres], ⟨fun h => ?_, fun h => ?_⟩, fun h => ?_⟩
    · by_contra hlt
      rw [hnone (by omega)] at h
      exact absurd h (by simp)
    · obtain ⟨a9, _, hopt⟩ := hsome h
      rw [hopt]
      rfl
    · obtain ⟨a9, h9, hopt⟩ := hsome h
      exact ⟨a9, by rw [← accountAt_eq]; exact h9, hopt⟩
  · obtain ⟨acc, hres, _, _, _, _, _, _, _, _, _, hnone, hsome⟩ :=
      settleFunds_SetAccounts_cases sf A idx hv hlen
    refine ⟨acc, by rw [hres], ⟨fun h => ?_, fun h => ?_⟩, fun h => ?_⟩
    · by_contra hlt
      rw [hnone (by omega)] at h
      exact absurd h (by simp)
    · obtain ⟨a9, _, hopt⟩ := hsome h
      rw [hopt]
      rfl
    · obtain ⟨a9, h9, hopt⟩ := hsome h
      exact ⟨a9, by rw [← accountAt_eq]; exact h9, hopt⟩

theorem optional_role_iff_ten_or_more_witness :
    (∃ acc, (InstructionNewOrder.SetAccounts ⟨⟨0⟩, 5, 6, ⟨1⟩, 7, none⟩
        [[0], [1], [2], [3], [4], [5], [6], [7], [8], [9], [10], [11]]
        [0, 1, 2, 3, 4, 5, 6, 7, 8, 9, 10, 11]).1.Accounts = some acc ∧
      acc.SRMDiscountAccount.isSome = true) ∧
    (∃ acc, (InstructionSettleFunds.SetAccounts ⟨none⟩
        [[0], [1], [2], [3], [4], [5], [6], [7], [8], [9], [10], [11]]
        [0, 1, 2, 3, 4, 5, 6, 7, 8, 9, 10, 11]).1.Accounts = some acc ∧
      acc.ReferrerPCWallet.isSome = true) := by
  obtain ⟨⟨acc1, h1, hiff1, _⟩, ⟨acc2, h2, hiff2, _⟩⟩ :=
    optional_role_iff_ten_or_more ⟨⟨0⟩, 5, 6, ⟨1⟩, 7, none⟩ ⟨none⟩
      [[0], [1], [2], [3], [4], [5], [6], [7], [8], [9], [10], [11]]
      [0, 1, 2, 3, 4, 5, 6, 7, 8, 9, 10, 11] (by decide) (by decide)
  exact ⟨⟨acc1, h1, hiff1.2 (by decide)⟩, ⟨acc2, h2, hiff2.2 (by decide)⟩⟩

/-! ## ConsumeEvents and the label mappings -/

/-- C13: for an index list of `N >= 4` valid entries,
`InstructionConsumeEvents.SetAccounts` maps the last four positions to market,
eventQueue, coinFeeReceivable and pcFeeReceivable and the positions before
them, in order, to the `N - 4` entries of openOrders, every entry writable
and not signer; with the identity table and indices 7..12 this gives
openOrders 7, 8 and the fixed roles 9, 10, 11, 12. -/
theorem consumeEvents_variable_prefix (i : InstructionConsumeEvents) (A : List PublicKey)
    (idx : List Nat) (hv : ∀ j ∈ idx, j < A.length) (hlen : 4 ≤ idx.length) :
    (∃ acc : ConsumeEventsAccounts,
      (i.SetAccounts A idx).2 = none ∧ (i.SetAccounts A idx).1.Accounts = some acc ∧
      ((idx[idx.length - 4]?).bind (fun j => A[j]?)).map
        (fun k => AccountMeta.mk k false true) = some acc.Market ∧
      ((idx[idx.length - 3]?).bind (fun j => A[j]?)).map
        (fun k => AccountMeta.mk k false true) = some acc.EventQueue ∧
      ((idx[idx.length - 2]?).bind (fun j => A[j]?)).map
        (fun k => AccountMeta.mk k false true) = some acc.CoinFeeReceivable ∧
      ((idx[idx.length - 1]?).bind (fun j => A[j]?)).map
        (fun k => AccountMeta.mk k false true) = some acc.PCFeeReceivable ∧
      acc.OpenOrders.length = idx.length - 4 ∧
      ∀ t, t < idx.length - 4 →
        ((idx[t]?).bind (fun j => A[j]?)).map (fun k => AccountMeta.mk k false true) =
          acc.OpenOrders[t]?) ∧
    (InstructionConsumeEvents.SetAccounts ⟨0, none⟩
      ((List.range 13).map (fun n => List.replicate 32 (Fin.ofNat n)))
      [7, 8, 9, 10, 11, 12]).1.Accounts =
      some
        { OpenOrders := [⟨List.replicate 32 7, false, true⟩, ⟨List.replicate 32 8, false, true⟩]
          Market := ⟨List.replicate 32 9, false, true⟩
          EventQueue := ⟨List.replicate 32 10, false, true⟩
          CoinFeeReceivable := ⟨List.replicate 32 11, false, true⟩
          PCFeeReceivable := ⟨List.replicate 32 12, false, true⟩ } := by
  refine ⟨?_, rfl⟩
  obtain ⟨m, hm⟩ := accountAt_valid A idx hv (idx.length - 4) (by omega)
  obtain ⟨q, hq⟩ := accountAt_valid A idx hv (idx.length - 3) (by omega)
  obtain ⟨c, hc⟩ := accountAt_valid A idx hv (idx.length - 2) (by omega)
  obtain ⟨p, hp⟩ := accountAt_valid A idx hv (idx.length - 1) (by omega)
  obtain ⟨oo, hres, hl, hget⟩ := consumeEvents_SetAccounts_eq i A idx hv hlen m q c p hm hq hc hp
  simp only [← accountAt_eq]
  rw [hres, hm, hq, hc, hp]
  exact ⟨_, rfl, rfl, rfl, rfl, rfl, rfl, hl, fun t ht => (hget t ht).symm⟩

theorem consumeEvents_variable_prefix_witness :
    ∃ acc : ConsumeEventsAccounts,
      (InstructionConsumeEvents.SetAccounts ⟨3, none⟩
        [[0], [1], [2], [3], [4], [5], [6], [7], [8], [9], [10], [11], [12]]
        [7, 8, 9, 10, 11, 12]).1.Accounts = some acc ∧
      some (AccountMeta.mk [9] false true) = some acc.Market ∧
      acc.OpenOrders.length = 2 ∧
      some (AccountMeta.mk [8] false true) = acc.OpenOrders[1]? := by
  obtain ⟨⟨acc, _, hacc, hm, _, _, _, hl, hget⟩, _⟩ :=
    consumeEvents_variable_prefix ⟨3, none⟩
      [[0], [1], [2], [3], [4], [5], [6], [7], [8], [9], [10], [11], [12]]
      [7, 8, 9, 10, 11, 12] (by decide) (by decide)
  exact ⟨acc, hacc, hm, hl, hget 1 (by decide)⟩

/-- C14: `Side.String` is BID at 0, ASK at 1 and UNKNOWN at every other
value; `OrderType.String` is LIMIT at 0, IMMEDIATE_OR_CANCEL at 1, POST_ONLY
at 2 and UNKNOWN at every other value; both are total functions. -/
theorem label_mappings_exact (s t : Nat) :
    Side.String ⟨s⟩ = (if s = 0 then "BID" else if s = 1 then "ASK" else "UNKNOWN") ∧
    OrderType.String ⟨t⟩ =
      (if t = 0 then "LIMIT" else if t = 1 then "IMMEDIATE_OR_CANCEL"
        else if t = 2 then "POST_ONLY" else "UNKNOWN") := by
  constructor
  · match s with
    | 0 => rfl
    | 1 => rfl
    | n + 2 => rfl
  · match t with
    | 0 => rfl
    | 1 => rfl
    | 2 => rfl
    | n + 3 => rfl

/-! ## Account-role resolution: the two outcomes under valid indices -/

theorem initializeMarket_SetAccounts_total (A : List PublicKey) (idx : List Nat)
    (hv : ∀ j ∈ idx, j < A.length) :
    (idx.length < 9 ∧
      ∀ i : InstructionInitializeMarket, i.SetAccounts A idx = (i, some .insufficientAccounts)) ∨
    (9 ≤ idx.length ∧ ∃ acc : InitializeMarketAccounts,
      ∀ i : InstructionInitializeMarket, i.SetAccounts A idx = ({ i with Accounts := some acc }, none)) := by
  by_cases hlt : idx.length < 9
  · exact Or.inl ⟨hlt, fun i => initializeMarket_SetAccounts_short i A idx hlt⟩
  · have hlen : 9 ≤ idx.length := by omega
    obtain ⟨a0, h0⟩ := accountAt_valid A idx hv 0 (by omega)
    obtain ⟨a5, h5⟩ := accountAt_valid A idx hv 5 (by omega)
    obtain ⟨a6, h6⟩ := accountAt_valid A idx hv 6 (by omega)
    obtain ⟨a7, h7⟩ := accountAt_valid A idx hv 7 (by omega)
    obtain ⟨a8, h8⟩ := accountAt_valid A idx hv 8 (by omega)
    exact Or.inr ⟨hlen, _, fun i =>
      initializeMarket_SetAccounts_eq i A idx a0 a5 a6 a7 a8 hlen h0 h5 h6 h7 h8⟩

theorem newOrder_SetAccounts_total (A : List PublicKey) (idx : List Nat)
    (hv : ∀ j ∈ idx, j < A.length) :
    (idx.length < 9 ∧
      ∀ i : InstructionNewOrder, i.SetAccounts A idx = (i, some .insufficientAccounts)) ∨
    (9 ≤ idx.length ∧ ∃ acc : NewOrderAccounts,
      ∀ i : InstructionNewOrder, i.SetAccounts A idx = ({ i with Accounts := some acc }, none)) := by
  by_cases hlt : idx.length < 9
  · exact Or.inl ⟨hlt, fun i => newOrder_SetAccounts_short i A idx hlt⟩
  · have hlen : 9 ≤ idx.length := by omega
    obtain ⟨a0, h0⟩ := accountAt_valid A idx hv 0 (by omega)
    obtain ⟨a1, h1⟩ := accountAt_valid A idx hv 1 (by omega)
    obtain ⟨a2, h2⟩ := accountAt_valid A idx hv 2 (by omega)
    obtain ⟨a3, h3⟩ := accountAt_valid A idx hv 3 (by omega)
    obtain ⟨a4, h4⟩ := accountAt_valid A idx hv 4 (by omega)
    obtain ⟨a5, h5⟩ := accountAt_valid A idx hv 5 (by omega)
    obtain ⟨a6, h6⟩ := accountAt_valid A idx hv 6 (by omega)
    obtain ⟨a7, h7⟩ := accountAt_valid A idx hv 7 (by omega)
    obtain ⟨a8, h8⟩ := accountAt_valid A idx hv 8 (by omega)
    by_cases h10 : 10 ≤ idx.length
    · obtain ⟨a9, h9⟩ := accountAt_valid A idx hv 9 (by omega)
      exact Or.inr ⟨hlen, _, fun i =>
        newOrder_SetAccounts_eq_ten i A idx a0 a1 a2 a3 a4 a5 a6 a7 a8 a9 h10 h0 h1 h2 h3 h4 h5 h6 h7 h8 h9⟩
    · exact Or.inr ⟨hlen, _, fun i =>
        newOrder_SetAccounts_eq_nine i A idx a0 a1 a2 a3 a4 a5 a6 a7 a8 hlen (by omega) h0 h1 h2 h3 h4 h5 h6 h7 h8⟩

theorem matchOrder_SetAccounts_total (A : List PublicKey) (idx : List Nat)
    (hv : ∀ j ∈ idx, j < A.length) :
    (idx.length < 7 ∧
      ∀ i : InstructionMatchOrder, i.SetAccounts A idx = (i, some .insufficientAccounts)) ∨
    (7 ≤ idx.length ∧ ∃ acc : MatchOrderAccounts,
      ∀ i : InstructionMatchOrder, i.SetAccounts A idx = ({ i with Accounts := some acc }, none)) := by
  by_cases hlt : idx.length < 7
  · exact Or.inl ⟨hlt, fun i => matchOrder_SetAccounts_short i A idx hlt⟩
  · have hlen : 7 ≤ idx.length := by omega
    obtain ⟨a0, h0⟩ := accountAt_valid A idx hv 0 (by omega)
    obtain ⟨a1, h1⟩ := accountAt_valid A idx hv 1 (by omega)
    obtain ⟨a2, h2⟩ := accountAt_valid A idx hv 2 (by omega)
    obtain ⟨a3, h3⟩ := accountAt_valid A idx hv 3 (by omega)
    obtain ⟨a4, h4⟩ := accountAt_valid A idx hv 4 (by omega)
    obtain ⟨a5, h5⟩ := accountAt_valid A idx hv 5 (by omega)
    obtain ⟨a6, h6⟩ := accountAt_valid A idx hv 6 (by omega)
    exact Or.inr ⟨hlen, _, fun i =>
      matchOrder_SetAccounts_eq i A idx a0 a1 a2 a3 a4 a5 a6 hlen h0 h1 h2 h3 h4 h5 h6⟩

theorem cancelOrder_SetAccounts_total (A : List PublicKey) (idx : List Nat)
    (hv : ∀ j ∈ idx, j < A.length) :
    (idx.length < 4 ∧
      ∀ i : InstructionCancelOrder, i.SetAccounts A idx = (i, some .insufficientAccounts)) ∨
    (4 ≤ idx.length ∧ ∃ acc : CancelOrderAccounts,
      ∀ i : InstructionCancelOrder, i.SetAccounts A idx = ({ i with Accounts := some acc }, none)) := by
  by_cases hlt : idx.length < 4
  · exact Or.inl ⟨hlt, fun i => cancelOrder_SetAccounts_short i A idx hlt⟩
  · have hlen : 4 ≤ idx.length := by omega
    obtain ⟨a0, h0⟩ := accountAt_valid A idx hv 0 (by omega)
    obtain ⟨a1, h1⟩ := accountAt_valid A idx hv 1 (by omega)
    obtain ⟨a2, h2⟩ := accountAt_valid A idx hv 2 (by omega)
    obtain ⟨a3, h3⟩ := accountAt_valid A idx hv 3 (by omega)
    exact Or.inr ⟨hlen, _, fun i =>
      cancelOrder_SetAccounts_eq i A idx a0 a1 a2 a3 hlen h0 h1 h2 h3⟩

theorem settleFunds_SetAccounts_total (A : List PublicKey) (idx : List Nat)
    (hv : ∀ j ∈ idx, j < A.length) :
    (idx.length < 9 ∧
      ∀ i : InstructionSettleFunds, i.SetAccounts A idx = (i, some .insufficientAccounts)) ∨
    (9 ≤ idx.length ∧ ∃ acc : SettleFundsAccounts,
      ∀ i : InstructionSettleFunds, i.SetAccounts A idx = ({ i with Accounts := some acc }, none)) := by
  by_cases hlt : idx.length < 9
  · exact Or.inl ⟨hlt, fun i => settleFunds_SetAccounts_short i A idx hlt⟩
  · have hlen : 9 ≤ idx.length := by omega
    obtain ⟨a0, h0⟩ := accountAt_valid A idx hv 0 (by omega)
    obtain ⟨a1, h1⟩ := accountAt_valid A idx hv 1 (by omega)
    obtain ⟨a2, h2⟩ := accountAt_valid A idx hv 2 (by omega)
    obtain ⟨a3, h3⟩ := accountAt_valid A idx hv 3 (by omega)
    obtain ⟨a4, h4⟩ := accountAt_valid A idx hv 4 (by omega)
    obtain ⟨a5, h5⟩ := accountAt_valid A idx hv 5 (by omega)
    obtain ⟨a6, h6⟩ := accountAt_valid A idx hv 6 (by omega)
    obtain ⟨a7, h7⟩ := accountAt_valid A idx hv 7 (by omega)
    obtain ⟨a8, h8⟩ := accountAt_valid A idx hv 8 (by omega)
    by_cases h10 : 10 ≤ idx.length
    · obtain ⟨a9, h9⟩ := accountAt_valid A idx hv 9 (by omega)
      exact Or.inr ⟨hlen, _, fun i =>
        settleFunds_SetAccounts_eq_ten i A idx a0 a1 a2 a3 a4 a5 a6 a7 a8 a9 h10 h0 h1 h2 h3 h4 h5 h6 h7 h8 h9⟩
    · exact Or.inr ⟨hlen, _, fun i =>
        settleFunds_SetAccounts_eq_nine i A idx a0 a1 a2 a3 a4 a5 a6 a7 a8 hlen (by omega) h0 h1 h2 h3 h4 h5 h6 h7 h8⟩

theorem cancelOrderByClientId_SetAccounts_total (A : List PublicKey) (idx : List Nat)
    (hv : ∀ j ∈ idx, j < A.length) :
    (idx.length < 4 ∧
      ∀ i : InstructionCancelOrderByClientId, i.SetAccounts A idx = (i, some .insufficientAccounts)) ∨
    (4 ≤ idx.length ∧ ∃ acc : CancelOrderByClientIdAccounts,
      ∀ i : InstructionCancelOrderByClientId, i.SetAccounts A idx = ({ i with Accounts := some acc }, none)) := by
  by_cases hlt : idx.length < 4
  · exact Or.inl ⟨hlt, fun i => cancelOrderByClientId_SetAccounts_short i A idx hlt⟩
  · have hlen : 4 ≤ idx.length := by omega
    obtain ⟨a0, h0⟩ := accountAt_valid A idx hv 0 (by omega)
    obtain ⟨a1, h1⟩ := accountAt_valid A idx hv 1 (by omega)
    obtain ⟨a2, h2⟩ := accountAt_valid A idx hv 2 (by omega)
    obtain ⟨a3, h3⟩ := accountAt_valid A idx hv 3 (by omega)
    exact Or.inr ⟨hlen, _, fun i =>
      cancelOrderByClientId_SetAccounts_eq i A idx a0 a1 a2 a3 hlen h0 h1 h2 h3⟩

theorem consumeEvents_SetAccounts_total (A : List PublicKey) (idx : List Nat)
    (hv : ∀ j ∈ idx, j < A.length) :
    (idx.length < 4 ∧
      ∀ i : InstructionConsumeEvents, i.SetAccounts A idx = (i, some .insufficientAccounts)) ∨
    (4 ≤ idx.length ∧ ∃ acc : ConsumeEventsAccounts,
      acc.OpenOrders.length = idx.length - 4 ∧
      ∀ i : InstructionConsumeEvents,
        i.SetAccounts A idx = ({ i with Accounts := some acc }, none)) := by
  by_cases hlt : idx.length < 4
  · exact Or.inl ⟨hlt, fun i => consumeEvents_SetAccounts_short i A idx hlt⟩
  · have hlen : 4 ≤ idx.length := by omega
    obtain ⟨m, hm⟩ := accountAt_valid A idx hv (idx.length - 4) (by omega)
    obtain ⟨q, hq⟩ := accountAt_valid A idx hv (idx.length - 3) (by omega)
    obtain ⟨c, hc⟩ := accountAt_valid A idx hv (idx.length - 2) (by omega)
    obtain ⟨p, hp⟩ := accountAt_valid A idx hv (idx.length - 1) (by omega)
    obtain ⟨oo, hoo, hl, _⟩ := appendOpenOrders_spec A idx hv (idx.length - 4) 0 [] (by omega)
    refine Or.inr ⟨hlen, ⟨oo, ⟨m, false, true⟩, ⟨q, false, true⟩, ⟨c, false, true⟩,
      ⟨p, false, true⟩⟩, hl, fun i => ?_⟩
    simp only [InstructionConsumeEvents.SetAccounts, if_neg hlt,
      hm, hq, hc, hp, hoo, Option.bind_eq_bind, Option.some_bind, Option.pure_def,
      List.nil_append]

/-! ## Positions and roles of the fixed-role variants -/

/-- C15, as the claim states it, fails for InitializeMarket: with nine
valid indices over nine distinct keys, the key at position 1 is the
identifier of no role of the resulting structure. -/
theorem initializeMarket_position_one_unmapped :
    ∃ acc : InitializeMarketAccounts,
      (InstructionInitializeMarket.SetAccounts ⟨1, 2, 3, 4, 5, none⟩
        [[10], [11], [12], [13], [14], [15], [16], [17], [18]]
        [0, 1, 2, 3, 4, 5, 6, 7, 8]).1.Accounts = some acc ∧
      ([0, 1, 2, 3, 4, 5, 6, 7, 8][1]?).bind
        (fun j => ([[10], [11], [12], [13], [14], [15], [16], [17], [18]] :
          List PublicKey)[j]?) = some [11] ∧
      ¬ ∃ r ∈ acc.roles, r.2.PublicKey = [11] :=
  ⟨⟨⟨[10], false, true⟩, ⟨[15], false, true⟩, ⟨[16], false, true⟩, ⟨[17], false, false⟩,
    ⟨[18], false, false⟩⟩, rfl, rfl, by decide⟩

/-- C15, amended: with valid indices of at least the minimum length, the
roles of MatchOrder, CancelOrder and CancelOrderByClientId are, in declared
order, the keys at positions 0..6, 0..3 and 0..3; the five roles of
InitializeMarket are the keys at positions 0, 5, 6, 7 and 8. -/
theorem fixed_roles_follow_positions (im : InstructionInitializeMarket)
    (mo : InstructionMatchOrder) (co : InstructionCancelOrder)
    (cc : InstructionCancelOrderByClientId) (A : List PublicKey) (idx : List Nat)
    (hv : ∀ j ∈ idx, j < A.length) :
    (9 ≤ idx.length → ∃ acc, (im.SetAccounts A idx).1.Accounts = some acc ∧
      acc.roles.map (fun r => some r.2.PublicKey) =
        [0, 5, 6, 7, 8].map (fun k => (idx[k]?).bind (fun j => A[j]?))) ∧
    (7 ≤ idx.length → ∃ acc, (mo.SetAccounts A idx).1.Accounts = some acc ∧
      acc.roles.map (fun r => some r.2.PublicKey) =
        [0, 1, 2, 3, 4, 5, 6].map (fun k => (idx[k]?).bind (fun j => A[j]?))) ∧
    (4 ≤ idx.length → ∃ acc, (co.SetAccounts A idx).1.Accounts = some acc ∧
      acc.roles.map (fun r => some r.2.PublicKey) =
        [0, 1, 2, 3].map (fun k => (idx[k]?).bind (fun j => A[j]?))) ∧
    (4 ≤ idx.length → ∃ acc, (cc.SetAccounts A idx).1.Accounts = some acc ∧
      acc.roles.map (fun r => some r.2.PublicKey) =
        [0, 1, 2, 3].map (fun k => (idx[k]?).bind (fun j => A[j]?))) := by
  refine ⟨fun hlen => ?_, fun hlen => ?_, fun hlen => ?_, fun hlen => ?_⟩
  · obtain ⟨a0, h0, e0⟩ := accountAt_valid_eq A idx hv 0 (by omega)
    obtain ⟨a5, h5, e5⟩ := accountAt_valid_eq A idx hv 5 (by omega)
    obtain ⟨a6, h6, e6⟩ := accountAt_valid_eq A idx hv 6 (by omega)
    obtain ⟨a7, h7, e7⟩ := accountAt_valid_eq A idx hv 7 (by omega)
    obtain ⟨a8, h8, e8⟩ := accountAt_valid_eq A idx hv 8 (by omega)
    rw [initializeMarket_SetAccounts_eq im A idx a0 a5 a6 a7 a8 hlen h0 h5 h6 h7 h8]
    refine ⟨_, rfl, ?_⟩
    simp only [InitializeMarketAccounts.roles, List.map_cons, List.map_nil, e0, e5, e6, e7, e8]
  · obtain ⟨a0, h0, e0⟩ := accountAt_valid_eq A idx hv 0 (by omega)
    obtain ⟨a1, h1, e1⟩ := accountAt_valid_eq A idx hv 1 (by omega)
    obtain ⟨a2, h2, e2⟩ := accountAt_valid_eq A idx hv 2 (by omega)
    obtain ⟨a3, h3, e3⟩ := accountAt_valid_eq A idx hv 3 (by omega)
    obtain ⟨a4, h4, e4⟩ := accountAt_valid_eq A idx hv 4 (by omega)
    obtain ⟨a5, h5, e5⟩ := accountAt_valid_eq A idx hv 5 (by omega)
    obtain ⟨a6, h6, e6⟩ := accountAt_valid_eq A idx hv 6 (by omega)
    rw [matchOrder_SetAccounts_eq mo A idx a0 a1 a2 a3 a4 a5 a6 hlen h0 h1 h2 h3 h4 h5 h6]
    refine ⟨_, rfl, ?_⟩
    simp only [MatchOrderAccounts.roles, List.map_cons, List.map_nil, e0, e1, e2, e3, e4, e5,
      e6]
  · obtain ⟨a0, h0, e0⟩ := accountAt_valid_eq A idx hv 0 (by omega)
    obtain ⟨a1, h1, e1⟩ := accountAt_valid_eq A idx hv 1 (by omega)
    obtain ⟨a2, h2, e2⟩ := accountAt_valid_eq A idx hv 2 (by omega)
    obtain ⟨a3, h3, e3⟩ := accountAt_valid_eq A idx hv 3 (by omega)
    rw [cancelOrder_SetAccounts_eq co A idx a0 a1 a2 a3 hlen h0 h1 h2 h3]
    refine ⟨_, rfl, ?_⟩
    simp only [CancelOrderAccounts.roles, List.map_cons, List.map_nil, e0, e1, e2, e3]
  · obtain ⟨a0, h0, e0⟩ := accountAt_valid_eq A idx hv 0 (by omega)
    obtain ⟨a1, h1, e1⟩ := accountAt_valid_eq A idx hv 1 (by omega)
    obtain ⟨a2, h2, e2⟩ := accountAt_valid_eq A idx hv 2 (by omega)
    obtain ⟨a3, h3, e3⟩ := accountAt_valid_eq A idx hv 3 (by omega)
    rw [cancelOrderByClientId_SetAccounts_eq cc A idx a0 a1 a2 a3 hlen h0 h1 h2 h3]
    refine ⟨_, rfl, ?_⟩
    simp only [CancelOrderByClientIdAccounts.roles, List.map_cons, List.map_nil, e0, e1, e2,
      e3]

theorem fixed_roles_follow_positions_witness :
    ∃ acc : InitializeMarketAccounts,
      (InstructionInitializeMarket.SetAccounts ⟨1, 2, 3, 4, 5, none⟩
        [[10], [11], [12], [13], [14], [15], [16], [17], [18]]
        [0, 1, 2, 3, 4, 5, 6, 7, 8]).1.Accounts = some acc ∧
      acc.roles.map (fun r => some r.2.PublicKey) =
        [some [10], some [15], some [16], some [17], some [18]] :=
  (fixed_roles_follow_positions ⟨1, 2, 3, 4, 5, none⟩ ⟨0, none⟩ ⟨0, ⟨0, 0⟩, [], 0, none⟩
    ⟨0, none⟩ [[10], [11], [12], [13], [14], [15], [16], [17], [18]]
    [0, 1, 2, 3, 4, 5, 6, 7, 8] (by decide)).1 (by decide)

/-! ## Frame, failure and totality of role resolution -/

/-- C16: with valid indices, `SetAccounts` of each of the seven variants
leaves every payload field as it was, whether it succeeds or fails, and when
it returns the insufficient-accounts error the attached role structure is
unchanged as well. -/
theorem setAccounts_frame (A : List PublicKey) (idx : List Nat)
    (hv : ∀ j ∈ idx, j < A.length)
    (im : InstructionInitializeMarket) (no : InstructionNewOrder) (mo : InstructionMatchOrder)
    (ce : InstructionConsumeEvents) (co : InstructionCancelOrder) (sf : InstructionSettleFunds)
    (cc : InstructionCancelOrderByClientId) :
    ((im.SetAccounts A idx).1.BaseLotSize = im.BaseLotSize ∧
      (im.SetAccounts A idx).1.QuoteLotSize = im.QuoteLotSize ∧
      (im.SetAccounts A idx).1.FeeRateBps = im.FeeRateBps ∧
      (im.SetAccounts A idx).1.VaultSignerNonce = im.VaultSignerNonce ∧
      (im.SetAccounts A idx).1.QuoteDustThreshold = im.QuoteDustThreshold ∧
      ((im.SetAccounts A idx).2 = some .insufficientAccounts →
        (im.SetAccounts A idx).1.Accounts = im.Accounts)) ∧
    ((no.SetAccounts A idx).1.Side = no.Side ∧
      (no.SetAccounts A idx).1.LimitPrice = no.LimitPrice ∧
      (no.SetAccounts A idx).1.MaxQuantity = no.MaxQuantity ∧
      (no.SetAccounts A idx).1.OrderType = no.OrderType ∧
      (no.SetAccounts A idx).1.ClientID = no.ClientID ∧
      ((no.SetAccounts A idx).2 = some .insufficientAccounts →
        (no.SetAccounts A idx).1.Accounts = no.Accounts)) ∧
    ((mo.SetAccounts A idx).1.Limit = mo.Limit ∧
      ((mo.SetAccounts A idx).2 = some .insufficientAccounts →
        (mo.SetAccounts A idx).1.Accounts = mo.Accounts)) ∧
    ((ce.SetAccounts A idx).1.Limit = ce.Limit ∧
      ((ce.SetAccounts A idx).2 = some .insufficientAccounts →
        (ce.SetAccounts A idx).1.Accounts = ce.Accounts)) ∧
    ((co.SetAccounts A idx).1.Side = co.Side ∧
      (co.SetAccounts A idx).1.OrderID = co.OrderID ∧
      (co.SetAccounts A idx).1.OpenOrders = co.OpenOrders ∧
      (co.SetAccounts A idx).1.OpenOrderSlot = co.OpenOrderSlot ∧
      ((co.SetAccounts A idx).2 = some .insufficientAccounts →
        (co.SetAccounts A idx).1.Accounts = co.Accounts)) ∧
    ((sf.SetAccounts A idx).2 = some .insufficientAccounts →
      (sf.SetAccounts A idx).1.Accounts = sf.Accounts) ∧
    ((cc.SetAccounts A idx).1.ClientID = cc.ClientID ∧
      ((cc.SetAccounts A idx).2 = some .insufficientAccounts →
        (cc.SetAccounts A idx).1.Accounts = cc.Accounts)) := by
  refine ⟨?_, ?_, ?_, ?_, ?_, ?_, ?_⟩
  · rcases initializeMarket_SetAccounts_total A idx hv with ⟨_, h⟩ | ⟨_, acc, h⟩ <;>
      rw [h im] <;> simp
  · rcases newOrder_SetAccounts_total A idx hv with ⟨_, h⟩ | ⟨_, acc, h⟩ <;>
      rw [h no] <;> simp
  · rcases matchOrder_SetAccounts_total A idx hv with ⟨_, h⟩ | ⟨_, acc, h⟩ <;>
      rw [h mo] <;> simp
  · rcases consumeEvents_SetAccounts_total A idx hv with ⟨_, h⟩ | ⟨_, acc, _, h⟩ <;>
      rw [h ce] <;> simp
  · rcases cancelOrder_SetAccounts_total A idx hv with ⟨_, h⟩ | ⟨_, acc, h⟩ <;>
      rw [h co] <;> simp
  · rcases settleFunds_SetAccounts_total A idx hv with ⟨_, h⟩ | ⟨_, acc, h⟩ <;>
      rw [h sf] <;> simp
  · rcases cancelOrderByClientId_SetAccounts_total A idx hv with ⟨_, h⟩ | ⟨_, acc, h⟩ <;>
      rw [h cc] <;> simp

theorem setAccounts_frame_witness :
    (InstructionNewOrder.SetAccounts ⟨⟨1⟩, 1720, 650000, ⟨0⟩, 7, none⟩
      [[0], [1], [2], [3], [4], [5], [6], [7], [8], [9]]
      [9, 8, 7, 6, 5, 4, 3, 2, 1]).1.LimitPrice = 1720 ∧
    ((InstructionCancelOrder.SetAccounts
        ⟨1, ⟨2, 3⟩, [], 4, some ⟨⟨[7], false, false⟩, ⟨[7], false, true⟩, ⟨[7], false, true⟩,
          ⟨[7], true, false⟩⟩⟩
        [[0], [1], [2], [3], [4], [5], [6], [7], [8], [9]] [0, 1, 2]).1.Accounts =
      some ⟨⟨[7], false, false⟩, ⟨[7], false, true⟩, ⟨[7], false, true⟩, ⟨[7], true, false⟩⟩) :=
  ⟨(setAccounts_frame [[0], [1], [2], [3], [4], [5], [6], [7], [8], [9]]
      [9, 8, 7, 6, 5, 4, 3, 2, 1] (by decide) ⟨0, 0, 0, 0, 0, none⟩
      ⟨⟨1⟩, 1720, 650000, ⟨0⟩, 7, none⟩ ⟨0, none⟩ ⟨0, none⟩ ⟨0, ⟨0, 0⟩, [], 0, none⟩ ⟨none⟩
      ⟨0, none⟩).2.1.2.1,
   (setAccounts_frame [[0], [1], [2], [3], [4], [5], [6], [7], [8], [9]]
      [0, 1, 2] (by decide) ⟨0, 0, 0, 0, 0, none⟩
      ⟨⟨1⟩, 1720, 650000, ⟨0⟩, 7, none⟩ ⟨0, none⟩ ⟨0, none⟩
      ⟨1, ⟨2, 3⟩, [], 4, some ⟨⟨[7], false, false⟩, ⟨[7], false, true⟩, ⟨[7], false, true⟩,
        ⟨[7], true, false⟩⟩⟩ ⟨none⟩ ⟨0, none⟩).2.2.2.2.1.2.2.2.2 rfl⟩

/-- C17, as the claim states it, fails: a NewOrder instruction whose data
decodes but whose index list has three entries makes `DecodeInstruction`
return the error and no instruction. -/
theorem decodeInstruction_returns_no_instruction :
    Instruction.UnmarshalBinary
      [0, 1, 0, 0, 0, 1, 0, 0, 0, 184, 6, 0, 0, 0, 0, 0, 0, 16, 235, 9, 0, 0, 0, 0, 0,
       0, 0, 0, 0, 7, 0, 0, 0, 0, 0, 0, 0] =
      .ok (⟨⟨1, .newOrder ⟨⟨1⟩, 1720, 650000, ⟨0⟩, 7, none⟩⟩, 0⟩, []) ∧
    ¬ ∃ inst, DecodeInstruction [[0], [1], [2]] ⟨[0, 1, 2],
      [0, 1, 0, 0, 0, 1, 0, 0, 0, 184, 6, 0, 0, 0, 0, 0, 0, 16, 235, 9, 0, 0, 0, 0, 0,
       0, 0, 0, 0, 7, 0, 0, 0, 0, 0, 0, 0]⟩ = .ok inst := by
  refine ⟨rfl, ?_⟩
  rintro ⟨inst, h⟩
  have herr : DecodeInstruction [[0], [1], [2]] ⟨[0, 1, 2],
      [0, 1, 0, 0, 0, 1, 0, 0, 0, 184, 6, 0, 0, 0, 0, 0, 0, 16, 235, 9, 0, 0, 0, 0, 0,
       0, 0, 0, 0, 7, 0, 0, 0, 0, 0, 0, 0]⟩ = .error (.setAccounts .insufficientAccounts) := rfl
  rw [herr] at h
  cases h

/-- The error branch of `DecodeInstruction` after a successful decode: an
index list shorter than the minimum of the decoded variant. -/
theorem decodeInstruction_short_error (accounts : List PublicKey)
    (ci : CompiledInstruction) (inst : Instruction) (rest : Decoder) (m : Nat)
    (hdec : Instruction.UnmarshalBinary ci.Data = .ok (inst, rest))
    (hmin : (inst.Impl.variantType, m) ∈
      [(VariantType.InstructionInitializeMarket, 9), (VariantType.InstructionNewOrder, 9),
       (VariantType.InstructionMatchOrder, 7), (VariantType.InstructionConsumeEvents, 4),
       (VariantType.InstructionCancelOrder, 4), (VariantType.InstructionSettleFunds, 9),
       (VariantType.InstructionCancelOrderByClientId, 4)])
    (hshort : ci.Accounts.length < m) :
    DecodeInstruction accounts ci = .error (.setAccounts .insufficientAccounts) := by
  obtain ⟨⟨typeID, impl⟩, version⟩ := inst
  simp only [DecodeInstruction, hdec]
  cases impl with
  | initializeMarket x =>
    have hm : m = 9 := by simpa [Impl.variantType] using hmin
    simp only [Impl.SetAccounts,
      initializeMarket_SetAccounts_short x accounts ci.Accounts (by omega)]
  | newOrder x =>
    have hm : m = 9 := by simpa [Impl.variantType] using hmin
    simp only [Impl.SetAccounts, newOrder_SetAccounts_short x accounts ci.Accounts (by omega)]
  | matchOrder x =>
    have hm : m = 7 := by simpa [Impl.variantType] using hmin
    simp only [Impl.SetAccounts, matchOrder_SetAccounts_short x accounts ci.Accounts (by omega)]
  | consumeEvents x =>
    have hm : m = 4 := by simpa [Impl.variantType] using hmin
    simp only [Impl.SetAccounts,
      consumeEvents_SetAccounts_short x accounts ci.Accounts (by omega)]
  | cancelOrder x =>
    have hm : m = 4 := by simpa [Impl.variantType] using hmin
    simp only [Impl.SetAccounts, cancelOrder_SetAccounts_short x accounts ci.Accounts (by omega)]
  | settleFunds x =>
    have hm : m = 9 := by simpa [Impl.variantType] using hmin
    simp only [Impl.SetAccounts, settleFunds_SetAccounts_short x accounts ci.Accounts (by omega)]
  | cancelOrderByClientId x =>
    have hm : m = 4 := by simpa [Impl.variantType] using hmin
    simp only [Impl.SetAccounts,
      cancelOrderByClientId_SetAccounts_short x accounts ci.Accounts (by omega)]

/-- C17, amended: when the instruction data decodes to one of the seven
variants and the index list is shorter than the minimum of that variant,
`DecodeInstruction` returns no instruction: its result is the
insufficient-accounts error wrapped as a set-accounts failure, and the decoded
instruction is discarded. -/
theorem decodeInstruction_insufficient_accounts (accounts : List PublicKey)
    (ci : CompiledInstruction) (inst : Instruction) (rest : Decoder) (m : Nat)
    (hdec : Instruction.UnmarshalBinary ci.Data = .ok (inst, rest))
    (hmin : (inst.Impl.variantType, m) ∈
      [(VariantType.InstructionInitializeMarket, 9), (VariantType.InstructionNewOrder, 9),
       (VariantType.InstructionMatchOrder, 7), (VariantType.InstructionConsumeEvents, 4),
       (VariantType.InstructionCancelOrder, 4), (VariantType.InstructionSettleFunds, 9),
       (VariantType.InstructionCancelOrderByClientId, 4)])
    (hshort : ci.Accounts.length < m) :
    DecodeInstruction accounts ci = .error (.setAccounts .insufficientAccounts) ∧
    ∀ delivered : Instruction, DecodeInstruction accounts ci ≠ .ok delivered := by
  have herr := decodeInstruction_short_error accounts ci inst rest m hdec hmin hshort
  refine ⟨herr, fun delivered h => ?_⟩
  rw [herr] at h
  cases h

theorem decodeInstruction_insufficient_accounts_witness :
    Instruction.UnmarshalBinary [0, 2, 0, 0, 0, 5, 0] =
      .ok (⟨⟨2, .matchOrder ⟨5, none⟩⟩, 0⟩, []) ∧
    DecodeInstruction [[0], [1], [2]] ⟨[0, 1, 2, 0, 1, 2], [0, 2, 0, 0, 0, 5, 0]⟩ =
      .error (.setAccounts .insufficientAccounts) :=
  ⟨rfl,
   (decodeInstruction_insufficient_accounts [[0], [1], [2]]
     ⟨[0, 1, 2, 0, 1, 2], [0, 2, 0, 0, 0, 5, 0]⟩ ⟨⟨2, .matchOrder ⟨5, none⟩⟩, 0⟩ [] 7 rfl
     (by decide) (by decide)).1⟩

/-- C18: with every index a valid position of the key table, `SetAccounts`
of each of the seven variants ends in one of two ways, the insufficient-accounts
error with the receiver untouched or success with a role structure attached;
it never ends in an index out of range, and every lookup
`accounts[instructionActIdx[k]]` at a position `k` of the list, in particular
the positions `N - 4 .. N - 1` and `0 .. N - 5` of ConsumeEvents, is in
bounds. -/
theorem setAccounts_no_out_of_range (A : List PublicKey) (idx : List Nat)
    (hv : ∀ j ∈ idx, j < A.length)
    (im : InstructionInitializeMarket) (no : InstructionNewOrder) (mo : InstructionMatchOrder)
    (ce : InstructionConsumeEvents) (co : InstructionCancelOrder) (sf : InstructionSettleFunds)
    (cc : InstructionCancelOrderByClientId) :
    ((((im.SetAccounts A idx).2 = some .insufficientAccounts ∧ (im.SetAccounts A idx).1 = im) ∨
        ((im.SetAccounts A idx).2 = none ∧ (im.SetAccounts A idx).1.Accounts.isSome = true)) ∧
      (im.SetAccounts A idx).2 ≠ some .indexOutOfRange) ∧
    ((((no.SetAccounts A idx).2 = some .insufficientAccounts ∧ (no.SetAccounts A idx).1 = no) ∨
        ((no.SetAccounts A idx).2 = none ∧ (no.SetAccounts A idx).1.Accounts.isSome = true)) ∧
      (no.SetAccounts A idx).2 ≠ some .indexOutOfRange) ∧
    ((((mo.SetAccounts A idx).2 = some .insufficientAccounts ∧ (mo.SetAccounts A idx).1 = mo) ∨
        ((mo.SetAccounts A idx).2 = none ∧ (mo.SetAccounts A idx).1.Accounts.isSome = true)) ∧
      (mo.SetAccounts A idx).2 ≠ some .indexOutOfRange) ∧
    ((((ce.SetAccounts A idx).2 = some .insufficientAccounts ∧ (ce.SetAccounts A idx).1 = ce) ∨
        ((ce.SetAccounts A idx).2 = none ∧ (ce.SetAccounts A idx).1.Accounts.isSome = true)) ∧
      (ce.SetAccounts A idx).2 ≠ some .indexOutOfRange) ∧
    ((((co.SetAccounts A idx).2 = some .insufficientAccounts ∧ (co.SetAccounts A idx).1 = co) ∨
        ((co.SetAccounts A idx).2 = none ∧ (co.SetAccounts A idx).1.Accounts.isSome = true)) ∧
      (co.SetAccounts A idx).2 ≠ some .indexOutOfRange) ∧
    ((((sf.SetAccounts A idx).2 = some .insufficientAccounts ∧ (sf.SetAccounts A idx).1 = sf) ∨
        ((sf.SetAccounts A idx).2 = none ∧ (sf.SetAccounts A idx).1.Accounts.isSome = true)) ∧
      (sf.SetAccounts A idx).2 ≠ some .indexOutOfRange) ∧
    ((((cc.SetAccounts A idx).2 = some .insufficientAccounts ∧ (cc.SetAccounts A idx).1 = cc) ∨
        ((cc.SetAccounts A idx).2 = none ∧ (cc.SetAccounts A idx).1.Accounts.isSome = true)) ∧
      (cc.SetAccounts A idx).2 ≠ some .indexOutOfRange) ∧
    (∀ k, k < idx.length → (accountAt A idx k).isSome = true) ∧
    (4 ≤ idx.length → ∀ k, (k < idx.length - 4 ∨ (idx.length - 4 ≤ k ∧ k ≤ idx.length - 1)) →
      k < idx.length) := by
  refine ⟨?_, ?_, ?_, ?_, ?_, ?_, ?_, ?_, ?_⟩
  · rcases initializeMarket_SetAccounts_total A idx hv with ⟨_, h⟩ | ⟨_, acc, h⟩ <;>
      rw [h im] <;> simp
  · rcases newOrder_SetAccounts_total A idx hv with ⟨_, h⟩ | ⟨_, acc, h⟩ <;>
      rw [h no] <;> simp
  · rcases matchOrder_SetAccounts_total A idx hv with ⟨_, h⟩ | ⟨_, acc, h⟩ <;>
      rw [h mo] <;> simp
  · rcases consumeEvents_SetAccounts_total A idx hv with ⟨_, h⟩ | ⟨_, acc, _, h⟩ <;>
      rw [h ce] <;> simp
  · rcases cancelOrder_SetAccounts_total A idx hv with ⟨_, h⟩ | ⟨_, acc, h⟩ <;>
      rw [h co] <;> simp
  · rcases settleFunds_SetAccounts_total A idx hv with ⟨_, h⟩ | ⟨_, acc, h⟩ <;>
      rw [h sf] <;> simp
  · rcases cancelOrderByClientId_SetAccounts_total A idx hv with ⟨_, h⟩ | ⟨_, acc, h⟩ <;>
      rw [h cc] <;> simp
  · intro k hk
    obtain ⟨a, ha⟩ := accountAt_valid A idx hv k hk
    rw [ha]
    rfl
  · intro h4 k hk
    omega

theorem setAccounts_no_out_of_range_witness :
    (InstructionConsumeEvents.SetAccounts ⟨3, none⟩
      [[0], [1], [2], [3], [4], [5], [6], [7]] [7, 0, 1, 2, 3, 4]).2 ≠ some .indexOutOfRange ∧
    (accountAt [[0], [1], [2], [3], [4], [5], [6], [7]] [7, 0, 1, 2, 3, 4] 0).isSome = true :=
  ⟨(setAccounts_no_out_of_range [[0], [1], [2], [3], [4], [5], [6], [7]] [7, 0, 1, 2, 3, 4]
      (by decide) ⟨0, 0, 0, 0, 0, none⟩ ⟨⟨0⟩, 0, 0, ⟨0⟩, 0, none⟩ ⟨0, none⟩ ⟨3, none⟩
      ⟨0, ⟨0, 0⟩, [], 0, none⟩ ⟨none⟩ ⟨0, none⟩).2.2.2.1.2,
   (setAccounts_no_out_of_range [[0], [1], [2], [3], [4], [5], [6], [7]] [7, 0, 1, 2, 3, 4]
      (by decide) ⟨0, 0, 0, 0, 0, none⟩ ⟨⟨0⟩, 0, 0, ⟨0⟩, 0, none⟩ ⟨0, none⟩ ⟨3, none⟩
      ⟨0, ⟨0, 0⟩, [], 0, none⟩ ⟨none⟩ ⟨0, none⟩).2.2.2.2.2.2.2.1 0 (by decide)⟩

/-- C19: for an index list of at least nine valid entries,
`InstructionSettleFunds.SetAccounts` succeeds and maps positions 0..8 to
market, openOrders, owner, coinVault, pcVault, coinWallet, pcWallet, signer
and splTokenProgram; owner alone is signer and is not writable, the roles
named signer and splTokenProgram are neither, the other six are writable and
not signer. -/
theorem settleFunds_positional_roles (i : InstructionSettleFunds) (A : List PublicKey)
    (idx : List Nat) (hv : ∀ j ∈ idx, j < A.length) (hlen : 9 ≤ idx.length) :
    ∃ acc : SettleFundsAccounts,
      (i.SetAccounts A idx).2 = none ∧ (i.SetAccounts A idx).1.Accounts = some acc ∧
      ((idx[0]?).bind (fun j => A[j]?)).map (fun k => AccountMeta.mk k false true) =
        some acc.Market ∧
      ((idx[1]?).bind (fun j => A[j]?)).map (fun k => AccountMeta.mk k false true) =
        some acc.OpenOrders ∧
      ((idx[2]?).bind (fun j => A[j]?)).map (fun k => AccountMeta.mk k true false) =
        some acc.Owner ∧
      ((idx[3]?).bind (fun j => A[j]?)).map (fun k => AccountMeta.mk k false true) =
        some acc.CoinVault ∧
      ((idx[4]?).bind (fun j => A[j]?)).map (fun k => AccountMeta.mk k false true) =
        some acc.PCVault ∧
      ((idx[5]?).bind (fun j => A[j]?)).map (fun k => AccountMeta.mk k false true) =
        some acc.CoinWallet ∧
      ((idx[6]?).bind (fun j => A[j]?)).map (fun k => AccountMeta.mk k false true) =
        some acc.PCWallet ∧
      ((idx[7]?).bind (fun j => A[j]?)).map (fun k => AccountMeta.mk k false false) =
        some acc.Signer ∧
      ((idx[8]?).bind (fun j => A[j]?)).map (fun k => AccountMeta.mk k false false) =
        some acc.SPLTokenProgram := by
  obtain ⟨acc, hres, h0, h1, h2, h3, h4, h5, h6, h7, h8, _, _⟩ :=
    settleFunds_SetAccounts_cases i A idx hv hlen
  simp only [← accountAt_eq]
  rw [hres]
  exact ⟨acc, rfl, rfl, h0, h1, h2, h3, h4, h5, h6, h7, h8⟩

theorem settleFunds_positional_roles_witness :
    ∃ acc : SettleFundsAccounts,
      (InstructionSettleFunds.SetAccounts ⟨none⟩
        [[10], [11], [12], [13], [14], [15], [16], [17], [18], [19]]
        [9, 8, 7, 6, 5, 4, 3, 2, 1]).1.Accounts = some acc ∧
      some (AccountMeta.mk [17] true false) = some acc.Owner ∧
      some (AccountMeta.mk [12] false false) = some acc.Signer := by
  obtain ⟨acc, _, hacc, _, _, ho, _, _, _, _, hs, _⟩ :=
    settleFunds_positional_roles ⟨none⟩
      [[10], [11], [12], [13], [14], [15], [16], [17], [18], [19]]
      [9, 8, 7, 6, 5, 4, 3, 2, 1] (by decide) (by decide)
  exact ⟨acc, hacc, ho, hs⟩

/-! ## Repeated role resolution -/

/-- C20: with valid indices, a second `SetAccounts` with the same arguments
leaves each of the seven variants as the first call left it, and a later call
with at least the minimum number of indices gives the same result as that
call alone; the ConsumeEvents openOrders list has `N - 4` entries after the
second call, and the optional NewOrder role set by a call with ten indices is
absent after a following call with nine. -/
theorem setAccounts_idempotent (A : List PublicKey) (idx : List Nat)
    (hv : ∀ j ∈ idx, j < A.length) (A2 : List PublicKey) (idx2 : List Nat)
    (hv2 : ∀ j ∈ idx2, j < A2.length)
    (im : InstructionInitializeMarket) (no : InstructionNewOrder) (mo : InstructionMatchOrder)
    (ce : InstructionConsumeEvents) (co : InstructionCancelOrder) (sf : InstructionSettleFunds)
    (cc : InstructionCancelOrderByClientId) :
    ((im.SetAccounts A idx).1.SetAccounts A idx = im.SetAccounts A idx ∧
      (9 ≤ idx2.length →
        (im.SetAccounts A idx).1.SetAccounts A2 idx2 = im.SetAccounts A2 idx2)) ∧
    ((no.SetAccounts A idx).1.SetAccounts A idx = no.SetAccounts A idx ∧
      (9 ≤ idx2.length →
        (no.SetAccounts A idx).1.SetAccounts A2 idx2 = no.SetAccounts A2 idx2)) ∧
    ((mo.SetAccounts A idx).1.SetAccounts A idx = mo.SetAccounts A idx ∧
      (7 ≤ idx2.length →
        (mo.SetAccounts A idx).1.SetAccounts A2 idx2 = mo.SetAccounts A2 idx2)) ∧
    ((ce.SetAccounts A idx).1.SetAccounts A idx = ce.SetAccounts A idx ∧
      (4 ≤ idx2.length →
        (ce.SetAccounts A idx).1.SetAccounts A2 idx2 = ce.SetAccounts A2 idx2)) ∧
    ((co.SetAccounts A idx).1.SetAccounts A idx = co.SetAccounts A idx ∧
      (4 ≤ idx2.length →
        (co.SetAccounts A idx).1.SetAccounts A2 idx2 = co.SetAccounts A2 idx2)) ∧
    ((sf.SetAccounts A idx).1.SetAccounts A idx = sf.SetAccounts A idx ∧
      (9 ≤ idx2.length →
        (sf.SetAccounts A idx).1.SetAccounts A2 idx2 = sf.SetAccounts A2 idx2)) ∧
    ((cc.SetAccounts A idx).1.SetAccounts A idx = cc.SetAccounts A idx ∧
      (4 ≤ idx2.length →
        (cc.SetAccounts A idx).1.SetAccounts A2 idx2 = cc.SetAccounts A2 idx2)) ∧
    (4 ≤ idx.length → ∃ acc,
      ((ce.SetAccounts A idx).1.SetAccounts A idx).1.Accounts = some acc ∧
      acc.OpenOrders.length = idx.length - 4) ∧
    (idx.length = 10 → idx2.length = 9 →
      (∃ acc, (no.SetAccounts A idx).1.Accounts = some acc ∧
        acc.SRMDiscountAccount.isSome = true) ∧
      ∃ acc, ((no.SetAccounts A idx).1.SetAccounts A2 idx2).1.Accounts = some acc ∧
        acc.SRMDiscountAccount = none) := by
  refine ⟨?_, ?_, ?_, ?_, ?_, ?_, ?_, ?_, ?_⟩
  · constructor
    · rcases initializeMarket_SetAccounts_total A idx hv with ⟨_, h⟩ | ⟨_, acc, h⟩
      · rw [h im, h im]
      · rw [h im, h]
    · intro hmin
      rcases initializeMarket_SetAccounts_total A2 idx2 hv2 with ⟨hlt, _⟩ | ⟨_, acc2, h2⟩
      · omega
      · rcases initializeMarket_SetAccounts_total A idx hv with ⟨_, h⟩ | ⟨_, acc, h⟩
        · rw [h im]
        · rw [h im, h2, h2]
  · constructor
    · rcases newOrder_SetAccounts_total A idx hv with ⟨_, h⟩ | ⟨_, acc, h⟩
      · rw [h no, h no]
      · rw [h no, h]
    · intro hmin
      rcases newOrder_SetAccounts_total A2 idx2 hv2 with ⟨hlt, _⟩ | ⟨_, acc2, h2⟩
      · omega
      · rcases newOrder_SetAccounts_total A idx hv with ⟨_, h⟩ | ⟨_, acc, h⟩
        · rw [h no]
        · rw [h no, h2, h2]
  · constructor
    · rcases matchOrder_SetAccounts_total A idx hv with ⟨_, h⟩ | ⟨_, acc, h⟩
      · rw [h mo, h mo]
      · rw [h mo, h]
    · intro hmin
      rcases matchOrder_SetAccounts_total A2 idx2 hv2 with ⟨hlt, _⟩ | ⟨_, acc2, h2⟩
      · omega
      · rcases matchOrder_SetAccounts_total A idx hv with ⟨_, h⟩ | ⟨_, acc, h⟩
        · rw [h mo]
        · rw [h mo, h2, h2]
  · constructor
    · rcases consumeEvents_SetAccounts_total A idx hv with ⟨_, h⟩ | ⟨_, acc, _, h⟩
      · rw [h ce, h ce]
      · rw [h ce, h]
    · intro hmin
      rcases consumeEvents_SetAccounts_total A2 idx2 hv2 with ⟨hlt, _⟩ | ⟨_, acc2, _, h2⟩
      · omega
      · rcases consumeEvents_SetAccounts_total A idx hv with ⟨_, h⟩ | ⟨_, acc, _, h⟩
        · rw [h ce]
        · rw [h ce, h2, h2]
  · constructor
    · rcases cancelOrder_SetAccounts_total A idx hv with ⟨_, h⟩ | ⟨_, acc, h⟩
      · rw [h co, h co]
      · rw [h co, h]
    · intro hmin
      rcases cancelOrder_SetAccounts_total A2 idx2 hv2 with ⟨hlt, _⟩ | ⟨_, acc2, h2⟩
      · omega
      · rcases cancelOrder_SetAccounts_total A idx hv with ⟨_, h⟩ | ⟨_, acc, h⟩
        · rw [h co]
        · rw [h co, h2, h2]
  · constructor
    · rcases settleFunds_SetAccounts_total A idx hv with ⟨_, h⟩ | ⟨_, acc, h⟩
      · rw [h sf, h sf]
      · rw [h sf, h]
    · intro hmin
      rcases settleFunds_SetAccounts_total A2 idx2 hv2 with ⟨hlt, _⟩ | ⟨_, acc2, h2⟩
      · omega
      · rcases settleFunds_SetAccounts_total A idx hv with ⟨_, h⟩ | ⟨_, acc, h⟩
        · rw [h sf]
        · rw [h sf, h2, h2]
  · constructor
    · rcases cancelOrderByClientId_SetAccounts_total A idx hv with ⟨_, h⟩ | ⟨_, acc, h⟩
      · rw [h cc, h cc]
      · rw [h cc, h]
    · intro hmin
      rcases cancelOrderByClientId_SetAccounts_total A2 idx2 hv2 with ⟨hlt, _⟩ | ⟨_, acc2, h2⟩
      · omega
      · rcases cancelOrderByClientId_SetAccounts_total A idx hv with ⟨_, h⟩ | ⟨_, acc, h⟩
        · rw [h cc]
        · rw [h cc, h2, h2]
  · intro h4
    rcases consumeEvents_SetAccounts_total A idx hv with ⟨hlt, _⟩ | ⟨_, acc, hl, h⟩
    · omega
    · rw [h ce, h]
      exact ⟨acc, rfl, hl⟩
  · intro h10 h9
    obtain ⟨acc, hres, _, _, _, _, _, _, _, _, _, _, hsome⟩ :=
      newOrder_SetAccounts_cases no A idx hv (by omega)
    obtain ⟨a9, _, hopt⟩ := hsome (by omega)
    obtain ⟨acc2, hres2, _, _, _, _, _, _, _, _, _, hnone, _⟩ :=
      newOrder_SetAccounts_cases (no.SetAccounts A idx).1 A2 idx2 hv2 (by omega)
    refine ⟨⟨acc, by rw [hres], by rw [hopt]; rfl⟩, acc2, by rw [hres2], hnone (by omega)⟩

theorem setAccounts_idempotent_witness :
    (∃ acc, ((InstructionConsumeEvents.SetAccounts ⟨3, none⟩
        [[0], [1], [2], [3], [4], [5], [6], [7], [8], [9]]
        [0, 1, 2, 3, 4, 5, 6, 7, 8, 9]).1.SetAccounts
        [[0], [1], [2], [3], [4], [5], [6], [7], [8], [9]]
        [0, 1, 2, 3, 4, 5, 6, 7, 8, 9]).1.Accounts = some acc ∧
      acc.OpenOrders.length = [0, 1, 2, 3, 4, 5, 6, 7, 8, 9].length - 4) ∧
    ∃ acc, ((InstructionNewOrder.SetAccounts ⟨⟨1⟩, 2, 3, ⟨0⟩, 4, none⟩
        [[0], [1], [2], [3], [4], [5], [6], [7], [8], [9]]
        [0, 1, 2, 3, 4, 5, 6, 7, 8, 9]).1.SetAccounts
        [[0], [1], [2], [3], [4], [5], [6], [7], [8], [9]]
        [0, 1, 2, 3, 4, 5, 6, 7, 8]).1.Accounts = some acc ∧
      acc.SRMDiscountAccount = none :=
  ⟨(setAccounts_idempotent [[0], [1], [2], [3], [4], [5], [6], [7], [8], [9]]
      [0, 1, 2, 3, 4, 5, 6, 7, 8, 9] (by decide)
      [[0], [1], [2], [3], [4], [5], [6], [7], [8], [9]] [0, 1, 2, 3, 4, 5, 6, 7, 8] (by decide)
      ⟨0, 0, 0, 0, 0, none⟩ ⟨⟨1⟩, 2, 3, ⟨0⟩, 4, none⟩ ⟨0, none⟩ ⟨3, none⟩
      ⟨0, ⟨0, 0⟩, [], 0, none⟩ ⟨none⟩ ⟨0, none⟩).2.2.2.2.2.2.2.1 (by decide),
   ((setAccounts_idempotent [[0], [1], [2], [3], [4], [5], [6], [7], [8], [9]]
      [0, 1, 2, 3, 4, 5, 6, 7, 8, 9] (by decide)
      [[0], [1], [2], [3], [4], [5], [6], [7], [8], [9]] [0, 1, 2, 3, 4, 5, 6, 7, 8] (by decide)
      ⟨0, 0, 0, 0, 0, none⟩ ⟨⟨1⟩, 2, 3, ⟨0⟩, 4, none⟩ ⟨0, none⟩ ⟨3, none⟩
      ⟨0, ⟨0, 0⟩, [], 0, none⟩ ⟨none⟩ ⟨0, none⟩).2.2.2.2.2.2.2.2 (by decide) (by decide)).2⟩

end Serum
